import Mathlib

/-!
Verification of the rotation core of the `mastering-rotation` repository.

The IEEE-double numeric code (`src/utils/rotation.ts` reached through
`src/App.tsx`, and the converter validation code in
`src/components/converter/RotationConverter.tsx`) is modelled over the real
numbers, with `Math.sqrt`, `Math.sin`, `Math.cos`, `Math.atan2`, `Math.asin`
mapped to their exact real counterparts (`Math.atan2 y x` is the argument of
the complex number `x + y·i`).  The discrete signed-axis permutation code
(`src/hooks/useAxisSwap.ts`) is modelled exactly.  A separate small model of
JavaScript numbers with `NaN`/`±Infinity` is used for the claims about
non-finite inputs; there the propagation rules of IEEE special values are
modelled exactly.  Validation results carry an error tag in place of the
source's formatted message strings (the strings are presentation only).
-/

namespace MasteringRotation

/-- The `Axis` type from `src/types.ts`: `'x' | 'y' | 'z'`. -/
inductive Axis
  | x
  | y
  | z
deriving DecidableEq, Repr, Fintype

/-- Quaternion record `{x, y, z, w}` from `src/types.ts`, components as reals. -/
@[ext]
structure Quaternion where
  x : ℝ
  y : ℝ
  z : ℝ
  w : ℝ

/-- Euler angle record `{roll, pitch, yaw}` (degrees) from `src/types.ts`. -/
@[ext]
structure EulerAngles where
  roll : ℝ
  pitch : ℝ
  yaw : ℝ

/-- Row-major 3×3 rotation matrix from `src/types.ts` (field `mij` is row `i`,
column `j` of the nested-array representation). -/
@[ext]
structure RotationMatrix where
  m00 : ℝ
  m01 : ℝ
  m02 : ℝ
  m10 : ℝ
  m11 : ℝ
  m12 : ℝ
  m20 : ℝ
  m21 : ℝ
  m22 : ℝ

/-- Model of `RotationStep` from `src/types.ts`: `{id, axis, angleDeg}`. -/
structure RotationStep where
  id : String
  axis : Axis
  angleDeg : ℝ

/-- Model of `RotationResult` from `src/types.ts`. -/
structure RotationResult where
  quaternion : Quaternion
  euler : EulerAngles
  matrix : RotationMatrix

noncomputable section RealCore

/-- Model of `DEG_TO_RAD = Math.PI / 180` from `src/utils/rotation.ts`. -/
def DEG_TO_RAD : ℝ := Real.pi / 180

/-- Model of `RAD_TO_DEG = 180 / Math.PI` from `src/utils/rotation.ts`. -/
def RAD_TO_DEG : ℝ := 180 / Real.pi

/-- Model of `identityQuaternion()` from `src/utils/rotation.ts`. -/
def identityQuaternion : Quaternion := ⟨0, 0, 0, 1⟩

/-- Model of `axisAngleToQuaternion(axis, angleDeg)` from `src/utils/rotation.ts`. -/
def axisAngleToQuaternion (axis : Axis) (angleDeg : ℝ) : Quaternion :=
  let halfAngle := angleDeg * DEG_TO_RAD / 2
  let s := Real.sin halfAngle
  let c := Real.cos halfAngle
  match axis with
  | .x => ⟨s, 0, 0, c⟩
  | .y => ⟨0, s, 0, c⟩
  | .z => ⟨0, 0, s, c⟩

/-- Model of `multiplyQuaternions(q1, q2)` from `src/utils/rotation.ts`
(Hamilton product `q1 * q2`). -/
def multiplyQuaternions (q1 q2 : Quaternion) : Quaternion :=
  { w := q1.w * q2.w - q1.x * q2.x - q1.y * q2.y - q1.z * q2.z
    x := q1.w * q2.x + q1.x * q2.w + q1.y * q2.z - q1.z * q2.y
    y := q1.w * q2.y - q1.x * q2.z + q1.y * q2.w + q1.z * q2.x
    z := q1.w * q2.z + q1.x * q2.y - q1.y * q2.x + q1.z * q2.w }

/-- The magnitude `Math.sqrt(x*x + y*y + z*z + w*w)` computed inside
`normalizeQuaternion` in `src/utils/rotation.ts`. -/
def quatMag (q : Quaternion) : ℝ :=
  Real.sqrt (q.x * q.x + q.y * q.y + q.z * q.z + q.w * q.w)

/-- Model of `normalizeQuaternion(q)` from `src/utils/rotation.ts`. -/
def normalizeQuaternion (q : Quaternion) : Quaternion :=
  let mag := quatMag q
  if mag < 1e-10 then identityQuaternion
  else ⟨q.x / mag, q.y / mag, q.z / mag, q.w / mag⟩

/-- Model of `quaternionToMatrix(q)` from `src/utils/rotation.ts`. -/
def quaternionToMatrix (q : Quaternion) : RotationMatrix :=
  let x2 := q.x + q.x
  let y2 := q.y + q.y
  let z2 := q.z + q.z
  let xx := q.x * x2
  let xy := q.x * y2
  let xz := q.x * z2
  let yy := q.y * y2
  let yz := q.y * z2
  let zz := q.z * z2
  let wx := q.w * x2
  let wy := q.w * y2
  let wz := q.w * z2
  { m00 := 1 - (yy + zz), m01 := xy - wz, m02 := xz + wy
    m10 := xy + wz, m11 := 1 - (xx + zz), m12 := yz - wx
    m20 := xz - wy, m21 := yz + wx, m22 := 1 - (xx + yy) }

/-- JavaScript `Math.atan2(y, x)`, modelled as the argument of `x + y·i`
(range `(-π, π]`; the signed-zero distinction of IEEE doubles has no
counterpart in `ℝ`). -/
def atan2 (y x : ℝ) : ℝ := Complex.arg ⟨x, y⟩

/-- Model of `quaternionToEuler(q)` from `src/utils/rotation.ts` (XYZ order, degrees). -/
def quaternionToEuler (q : Quaternion) : EulerAngles :=
  let sinr_cosp := 2 * (q.w * q.x + q.y * q.z)
  let cosr_cosp := 1 - 2 * (q.x * q.x + q.y * q.y)
  let roll := atan2 sinr_cosp cosr_cosp
  let sinp := 2 * (q.w * q.y - q.z * q.x)
  let pitch := if |sinp| ≥ 1 then Real.sign sinp * (Real.pi / 2) else Real.arcsin sinp
  let siny_cosp := 2 * (q.w * q.z + q.x * q.y)
  let cosy_cosp := 1 - 2 * (q.y * q.y + q.z * q.z)
  let yaw := atan2 siny_cosp cosy_cosp
  ⟨roll * RAD_TO_DEG, pitch * RAD_TO_DEG, yaw * RAD_TO_DEG⟩

/-- The accumulator loop of `computeRotationChain` in `src/utils/rotation.ts`:
starting from the identity, each step's elemental quaternion is multiplied
from the left. -/
def chainAccum (steps : List RotationStep) : Quaternion :=
  steps.foldl
    (fun result step =>
      multiplyQuaternions (axisAngleToQuaternion step.axis step.angleDeg) result)
    identityQuaternion

/-- Model of `computeRotationChain(steps)` from `src/utils/rotation.ts`. -/
def computeRotationChain (steps : List RotationStep) : RotationResult :=
  let result := normalizeQuaternion (chainAccum steps)
  ⟨result, quaternionToEuler result, quaternionToMatrix result⟩

/-- Model of `eulerToQuaternion(euler)` from `src/utils/rotation.ts`. -/
def eulerToQuaternion (euler : EulerAngles) : Quaternion :=
  let roll := euler.roll * DEG_TO_RAD
  let pitch := euler.pitch * DEG_TO_RAD
  let yaw := euler.yaw * DEG_TO_RAD
  let cr := Real.cos (roll / 2)
  let sr := Real.sin (roll / 2)
  let cp := Real.cos (pitch / 2)
  let sp := Real.sin (pitch / 2)
  let cy := Real.cos (yaw / 2)
  let sy := Real.sin (yaw / 2)
  normalizeQuaternion
    { w := cr * cp * cy + sr * sp * sy
      x := sr * cp * cy - cr * sp * sy
      y := cr * sp * cy + sr * cp * sy
      z := cr * cp * sy - sr * sp * cy }

/-- Model of `matrixToQuaternion(m)` from `src/utils/rotation.ts` (Shepperd's method). -/
def matrixToQuaternion (m : RotationMatrix) : Quaternion :=
  let trace := m.m00 + m.m11 + m.m22
  if trace > 0 then
    let s := 0.5 / Real.sqrt (trace + 1)
    normalizeQuaternion
      ⟨(m.m21 - m.m12) * s, (m.m02 - m.m20) * s, (m.m10 - m.m01) * s, 0.25 / s⟩
  else if m.m00 > m.m11 ∧ m.m00 > m.m22 then
    let s := 2 * Real.sqrt (1 + m.m00 - m.m11 - m.m22)
    normalizeQuaternion
      ⟨0.25 * s, (m.m01 + m.m10) / s, (m.m02 + m.m20) / s, (m.m21 - m.m12) / s⟩
  else if m.m11 > m.m22 then
    let s := 2 * Real.sqrt (1 + m.m11 - m.m00 - m.m22)
    normalizeQuaternion
      ⟨(m.m01 + m.m10) / s, 0.25 * s, (m.m12 + m.m21) / s, (m.m02 - m.m20) / s⟩
  else
    let s := 2 * Real.sqrt (1 + m.m22 - m.m00 - m.m11)
    normalizeQuaternion
      ⟨(m.m02 + m.m20) / s, (m.m12 + m.m21) / s, 0.25 * s, (m.m10 - m.m01) / s⟩

/-- Error tags for the matrix branch of `ValidationResult` in
`src/components/converter/RotationConverter.tsx` (the source stores a
formatted message string; the three distinct failure sites are modelled as
tags). -/
inductive MatrixError
  | singular
  | improperRotation
  | notOrthonormal
deriving DecidableEq, Repr

/-- The `ValidationResult` union for matrix validation:
`{valid:true} | {valid:false, error, canNormalize}`. -/
inductive MatrixValidation
  | valid
  | invalid (error : MatrixError) (canNormalize : Bool)
deriving DecidableEq, Repr

/-- The cofactor-expansion determinant computed at the top of
`validateRotationMatrix` in `RotationConverter.tsx`. -/
def detM (m : RotationMatrix) : ℝ :=
  m.m00 * (m.m11 * m.m22 - m.m12 * m.m21) -
    m.m01 * (m.m10 * m.m22 - m.m12 * m.m20) +
    m.m02 * (m.m10 * m.m21 - m.m11 * m.m20)

/-- The `maxError` loop of `validateRotationMatrix`: the largest absolute
deviation of `R·Rᵀ` from the identity over all nine entries (accumulated by
`Math.max` starting from `0`, in row-major order). -/
def orthoMaxError (m : RotationMatrix) : ℝ :=
  let r00 := m.m00 * m.m00 + m.m01 * m.m01 + m.m02 * m.m02
  let r01 := m.m00 * m.m10 + m.m01 * m.m11 + m.m02 * m.m12
  let r02 := m.m00 * m.m20 + m.m01 * m.m21 + m.m02 * m.m22
  let r10 := m.m10 * m.m00 + m.m11 * m.m01 + m.m12 * m.m02
  let r11 := m.m10 * m.m10 + m.m11 * m.m11 + m.m12 * m.m12
  let r12 := m.m10 * m.m20 + m.m11 * m.m21 + m.m12 * m.m22
  let r20 := m.m20 * m.m00 + m.m21 * m.m01 + m.m22 * m.m02
  let r21 := m.m20 * m.m10 + m.m21 * m.m11 + m.m22 * m.m12
  let r22 := m.m20 * m.m20 + m.m21 * m.m21 + m.m22 * m.m22
  max (max (max (max (max (max (max (max (max 0
    |r00 - 1|) |r01 - 0|) |r02 - 0|) |r10 - 0|) |r11 - 1|) |r12 - 0|)
    |r20 - 0|) |r21 - 0|) |r22 - 1|

/-- Model of `validateRotationMatrix(m)` from `RotationConverter.tsx`
(`TOLERANCE = 0.01`). -/
def validateRotationMatrix (m : RotationMatrix) : MatrixValidation :=
  let det := detM m
  if |det| < 1e-10 then .invalid .singular false
  else if det < 0 then .invalid .improperRotation false
  else if orthoMaxError m > 0.01 then .invalid .notOrthonormal true
  else .valid

/-- An orthonormal proper rotation matrix (§3 of the spec): rows orthonormal
(`R·Rᵀ = I`) and determinant `+1`. -/
def IsProperRotation (m : RotationMatrix) : Prop :=
  m.m00 * m.m00 + m.m01 * m.m01 + m.m02 * m.m02 = 1 ∧
  m.m10 * m.m10 + m.m11 * m.m11 + m.m12 * m.m12 = 1 ∧
  m.m20 * m.m20 + m.m21 * m.m21 + m.m22 * m.m22 = 1 ∧
  m.m00 * m.m10 + m.m01 * m.m11 + m.m02 * m.m12 = 0 ∧
  m.m00 * m.m20 + m.m01 * m.m21 + m.m02 * m.m22 = 0 ∧
  m.m10 * m.m20 + m.m11 * m.m21 + m.m12 * m.m22 = 0 ∧
  detM m = 1

/-- Length-3 vector used by the local helpers of `orthonormalizeMatrix`. -/
@[ext]
structure Vec3 where
  a : ℝ
  b : ℝ
  c : ℝ

/-- The `dot` local helper of `orthonormalizeMatrix`. -/
def dot3 (u v : Vec3) : ℝ := u.a * v.a + u.b * v.b + u.c * v.c

/-- The `normalize` local helper of `orthonormalizeMatrix`
(falls back to `(1,0,0)` when the length is not above `1e-10`). -/
def normalize3 (v : Vec3) : Vec3 :=
  let len := Real.sqrt (dot3 v v)
  if len > 1e-10 then ⟨v.a / len, v.b / len, v.c / len⟩ else ⟨1, 0, 0⟩

/-- The `sub` local helper of `orthonormalizeMatrix`: `a - b * s`. -/
def sub3 (u v : Vec3) (s : ℝ) : Vec3 := ⟨u.a - v.a * s, u.b - v.b * s, u.c - v.c * s⟩

/-- The `cross` local helper of `orthonormalizeMatrix`. -/
def cross3 (u v : Vec3) : Vec3 :=
  ⟨u.b * v.c - u.c * v.b, u.c * v.a - u.a * v.c, u.a * v.b - u.b * v.a⟩

/-- Model of `orthonormalizeMatrix(m)` from `RotationConverter.tsx`: Gram–Schmidt on
the first two columns, third column the cross product of the results. -/
def orthonormalizeMatrix (m : RotationMatrix) : RotationMatrix :=
  let c0 : Vec3 := ⟨m.m00, m.m10, m.m20⟩
  let c1 : Vec3 := ⟨m.m01, m.m11, m.m21⟩
  let u0 := normalize3 c0
  let u1 := normalize3 (sub3 c1 u0 (dot3 c1 u0))
  let u2 := cross3 u0 u1
  { m00 := u0.a, m01 := u1.a, m02 := u2.a
    m10 := u0.b, m11 := u1.b, m12 := u2.b
    m20 := u0.c, m21 := u1.c, m22 := u2.c }

end RealCore

/-- Model of `SignedAxis` from `src/types.ts`: `'x' | '-x' | 'y' | '-y' | 'z' | '-z'`
(`nx` stands for the label `-x`, and so on). -/
inductive SignedAxis
  | x
  | nx
  | y
  | ny
  | z
  | nz
deriving DecidableEq, Repr, Fintype

/-- Model of `AxisMapping` from `src/types.ts`: the signed axis each original axis now
points to. -/
@[ext]
structure AxisMapping where
  x : SignedAxis
  y : SignedAxis
  z : SignedAxis
deriving DecidableEq, Repr, Fintype

/-- Model of `IDENTITY_MAPPING` from `src/hooks/useAxisSwap.ts`. -/
def IDENTITY_MAPPING : AxisMapping := ⟨.x, .y, .z⟩

/-- The `transform` label transition inside `applyRotation` in
`src/hooks/useAxisSwap.ts`: how one signed-axis label moves under a 90°
world-frame rotation about `axis` (positive or negative direction). -/
def transformSignedAxis (axis : Axis) (positive : Bool) (a : SignedAxis) : SignedAxis :=
  match axis with
  | .x =>
    match a with
    | .y => if positive then .z else .nz
    | .ny => if positive then .nz else .z
    | .z => if positive then .ny else .y
    | .nz => if positive then .y else .ny
    | _ => a
  | .y =>
    match a with
    | .z => if positive then .x else .nx
    | .nz => if positive then .nx else .x
    | .x => if positive then .nz else .z
    | .nx => if positive then .z else .nz
    | _ => a
  | .z =>
    match a with
    | .x => if positive then .y else .ny
    | .nx => if positive then .ny else .y
    | .y => if positive then .nx else .x
    | .ny => if positive then .x else .nx
    | _ => a

/-- Model of `applyRotation(mapping, axis, positive)` from `src/hooks/useAxisSwap.ts`. -/
def applyRotation (mapping : AxisMapping) (axis : Axis) (positive : Bool) : AxisMapping :=
  { x := transformSignedAxis axis positive mapping.x
    y := transformSignedAxis axis positive mapping.y
    z := transformSignedAxis axis positive mapping.z }

/-- Model of `signedAxisToVector` from `src/hooks/useAxisSwap.ts`; its values are the
six signed unit vectors, represented exactly over `ℤ`. -/
def signedAxisToVector : SignedAxis → ℤ × ℤ × ℤ
  | .x => (1, 0, 0)
  | .nx => (-1, 0, 0)
  | .y => (0, 1, 0)
  | .ny => (0, -1, 0)
  | .z => (0, 0, 1)
  | .nz => (0, 0, -1)

/-- Integer dot product of image vectors. -/
def idot (u v : ℤ × ℤ × ℤ) : ℤ := u.1 * v.1 + u.2.1 * v.2.1 + u.2.2 * v.2.2

/-- Determinant of the matrix whose columns are the images of `x`, `y`, `z`
under a mapping. -/
def mappingDet (m : AxisMapping) : ℤ :=
  let u := signedAxisToVector m.x
  let v := signedAxisToVector m.y
  let w := signedAxisToVector m.z
  u.1 * (v.2.1 * w.2.2 - v.2.2 * w.2.1) -
    v.1 * (u.2.1 * w.2.2 - u.2.2 * w.2.1) +
    w.1 * (u.2.1 * v.2.2 - u.2.2 * v.2.1)

/-- The invariant of §3 of the spec: the three images are mutually orthogonal
unit vectors forming a right-handed frame (the matrix with those columns is a
proper rotation, determinant `+1`). -/
def ProperMapping (m : AxisMapping) : Prop :=
  idot (signedAxisToVector m.x) (signedAxisToVector m.x) = 1 ∧
  idot (signedAxisToVector m.y) (signedAxisToVector m.y) = 1 ∧
  idot (signedAxisToVector m.z) (signedAxisToVector m.z) = 1 ∧
  idot (signedAxisToVector m.x) (signedAxisToVector m.y) = 0 ∧
  idot (signedAxisToVector m.x) (signedAxisToVector m.z) = 0 ∧
  idot (signedAxisToVector m.y) (signedAxisToVector m.z) = 0 ∧
  mappingDet m = 1

instance (m : AxisMapping) : Decidable (ProperMapping m) := by
  unfold ProperMapping; infer_instance

/-- Mappings reachable from `IDENTITY_MAPPING` by `applyRotation` steps —
the only way the UI layer (`useAxisSwap`) ever produces a mapping. -/
inductive ReachableMapping : AxisMapping → Prop
  | base : ReachableMapping IDENTITY_MAPPING
  | step {m : AxisMapping} (axis : Axis) (positive : Bool) :
      ReachableMapping m → ReachableMapping (applyRotation m axis positive)

/-! ### A model of JavaScript numbers with non-finite values

JavaScript numbers are IEEE doubles: they include `NaN` and `±Infinity`, and
every arithmetic primitive silently propagates them (no exception is ever
raised).  To examine how the core treats non-finite input, the operations
used by `validateQuaternion` / `normalizeQuaternion` are modelled over
`JSNum`, where finite values are exact reals and the `NaN`/`±Infinity`
propagation and comparison rules of IEEE are reproduced exactly (signed
zero is not distinguished). -/

/-- A JavaScript number: finite (modelled exactly), `NaN`, or `±Infinity`. -/
inductive JSNum
  | fin (r : ℝ)
  | nan
  | inf
  | ninf

noncomputable section JSModel

/-- IEEE addition on `JSNum`. -/
def jadd : JSNum → JSNum → JSNum
  | .nan, _ => .nan
  | _, .nan => .nan
  | .inf, .ninf => .nan
  | .ninf, .inf => .nan
  | .inf, _ => .inf
  | _, .inf => .inf
  | .ninf, _ => .ninf
  | _, .ninf => .ninf
  | .fin a, .fin b => .fin (a + b)

/-- IEEE subtraction on `JSNum`. -/
def jsub : JSNum → JSNum → JSNum
  | .nan, _ => .nan
  | _, .nan => .nan
  | .inf, .inf => .nan
  | .ninf, .ninf => .nan
  | .inf, _ => .inf
  | _, .inf => .ninf
  | .ninf, _ => .ninf
  | _, .ninf => .inf
  | .fin a, .fin b => .fin (a - b)

/-- IEEE multiplication on `JSNum` (`±∞ · 0 = NaN`). -/
def jmul : JSNum → JSNum → JSNum
  | .nan, _ => .nan
  | _, .nan => .nan
  | .inf, .fin b => if b = 0 then .nan else if 0 < b then .inf else .ninf
  | .fin a, .inf => if a = 0 then .nan else if 0 < a then .inf else .ninf
  | .ninf, .fin b => if b = 0 then .nan else if 0 < b then .ninf else .inf
  | .fin a, .ninf => if a = 0 then .nan else if 0 < a then .ninf else .inf
  | .inf, .inf => .inf
  | .inf, .ninf => .ninf
  | .ninf, .inf => .ninf
  | .ninf, .ninf => .inf
  | .fin a, .fin b => .fin (a * b)

/-- IEEE division on `JSNum` (`0/0 = NaN`, `a/0 = ±∞`, `a/NaN = NaN`,
finite`/±∞ = 0`; signed zero is not distinguished). -/
def jdiv : JSNum → JSNum → JSNum
  | .nan, _ => .nan
  | _, .nan => .nan
  | .inf, .inf => .nan
  | .inf, .ninf => .nan
  | .ninf, .inf => .nan
  | .ninf, .ninf => .nan
  | .inf, .fin b => if 0 ≤ b then .inf else .ninf
  | .ninf, .fin b => if 0 ≤ b then .ninf else .inf
  | .fin _, .inf => .fin 0
  | .fin _, .ninf => .fin 0
  | .fin a, .fin b =>
    if b = 0 then (if a = 0 then .nan else if 0 < a then .inf else .ninf)
    else .fin (a / b)

/-- JavaScript `Math.abs` on `JSNum`. -/
def jabs : JSNum → JSNum
  | .nan => .nan
  | .inf => .inf
  | .ninf => .inf
  | .fin a => .fin |a|

/-- JavaScript `Math.sqrt` on `JSNum` (`NaN` for negative input). -/
def jsqrt : JSNum → JSNum
  | .nan => .nan
  | .inf => .inf
  | .ninf => .nan
  | .fin a => if a < 0 then .nan else .fin (Real.sqrt a)

/-- IEEE `<` on `JSNum`: every comparison involving `NaN` is false. -/
def jlt : JSNum → JSNum → Bool
  | .nan, _ => false
  | _, .nan => false
  | .ninf, .ninf => false
  | .ninf, _ => true
  | _, .ninf => false
  | .inf, _ => false
  | _, .inf => true
  | .fin a, .fin b => decide (a < b)

/-- IEEE `>` on `JSNum`: every comparison involving `NaN` is false. -/
def jgt (a b : JSNum) : Bool := jlt b a

/-- Quaternion with JavaScript-number components, for the non-finite-input
analysis of `validateQuaternion` / `normalizeQuaternion`. -/
structure JSQuaternion where
  x : JSNum
  y : JSNum
  z : JSNum
  w : JSNum

/-- Error tags for the quaternion branch of `ValidationResult` in
`RotationConverter.tsx`. -/
inductive QuatError
  | zeroMagnitude
  | notNormalized
deriving DecidableEq, Repr

/-- Model of `ValidationResult` for quaternion validation. -/
inductive QuatValidation
  | valid
  | invalid (error : QuatError) (canNormalize : Bool)
deriving DecidableEq, Repr

/-- Model of `validateQuaternion(x, y, z, w)` from `RotationConverter.tsx`, over the
JavaScript-number model (the computation is exactly the source's:
`mag = Math.sqrt(x*x + y*y + z*z + w*w)`, then the `mag < 1e-10` and
`Math.abs(mag - 1) > TOLERANCE` checks). -/
def validateQuaternionJS (x y z w : JSNum) : QuatValidation :=
  let mag := jsqrt (jadd (jadd (jadd (jmul x x) (jmul y y)) (jmul z z)) (jmul w w))
  if jlt mag (.fin 1e-10) then .invalid .zeroMagnitude false
  else if jgt (jabs (jsub mag (.fin 1))) (.fin 0.01) then .invalid .notNormalized true
  else .valid

/-- Model of `normalizeQuaternion(q)` from `src/utils/rotation.ts`, over the
JavaScript-number model. -/
def normalizeQuaternionJS (q : JSQuaternion) : JSQuaternion :=
  let mag := jsqrt (jadd (jadd (jadd (jmul q.x q.x) (jmul q.y q.y)) (jmul q.z q.z)) (jmul q.w q.w))
  if jlt mag (.fin 1e-10) then ⟨.fin 0, .fin 0, .fin 0, .fin 1⟩
  else ⟨jdiv q.x mag, jdiv q.y mag, jdiv q.z mag, jdiv q.w mag⟩

end JSModel

/-! ## Basic lemmas -/

theorem quatSumSq_nonneg (q : Quaternion) :
    0 ≤ q.x * q.x + q.y * q.y + q.z * q.z + q.w * q.w := by
  nlinarith [mul_self_nonneg q.x, mul_self_nonneg q.y, mul_self_nonneg q.z,
    mul_self_nonneg q.w]

theorem quatMag_nonneg (q : Quaternion) : 0 ≤ quatMag q := Real.sqrt_nonneg _

theorem quatMag_sq (q : Quaternion) :
    quatMag q * quatMag q = q.x * q.x + q.y * q.y + q.z * q.z + q.w * q.w := by
  unfold quatMag
  exact Real.mul_self_sqrt (quatSumSq_nonneg q)

theorem quatMag_eq_one (q : Quaternion)
    (h : q.x * q.x + q.y * q.y + q.z * q.z + q.w * q.w = 1) : quatMag q = 1 := by
  unfold quatMag
  rw [h, Real.sqrt_one]

theorem normalizeQuaternion_of_mag_one (q : Quaternion) (h : quatMag q = 1) :
    normalizeQuaternion q = q := by
  simp only [normalizeQuaternion, h]
  norm_num

theorem quatMag_identity : quatMag identityQuaternion = 1 := by
  apply quatMag_eq_one
  norm_num [identityQuaternion]

theorem quatMag_div_self (q : Quaternion) (h : quatMag q ≠ 0) :
    quatMag ⟨q.x / quatMag q, q.y / quatMag q, q.z / quatMag q, q.w / quatMag q⟩ = 1 := by
  apply quatMag_eq_one
  show q.x / quatMag q * (q.x / quatMag q) + q.y / quatMag q * (q.y / quatMag q) +
    q.z / quatMag q * (q.z / quatMag q) + q.w / quatMag q * (q.w / quatMag q) = 1
  rw [div_mul_div_comm, div_mul_div_comm, div_mul_div_comm, div_mul_div_comm,
    div_add_div_same, div_add_div_same, div_add_div_same, quatMag_sq]
  exact div_self (by
    rw [← quatMag_sq]
    exact mul_ne_zero h h)

/-! ## C1 — chain composition -/

/-- C1: `computeRotationChain` starts from the identity quaternion and folds
the steps in input order with `accum := multiply(elemental, accum)` (each new
step's elemental quaternion pre-multiplies, i.e. world-frame composition);
the final accumulator is normalized before the result is derived, and the
empty chain yields the identity quaternion. -/
theorem chain_premultiply_spec :
    (chainAccum [] = identityQuaternion) ∧
    (∀ (steps : List RotationStep) (s : RotationStep),
      chainAccum (steps ++ [s]) =
        multiplyQuaternions (axisAngleToQuaternion s.axis s.angleDeg) (chainAccum steps)) ∧
    (∀ steps : List RotationStep,
      computeRotationChain steps =
        { quaternion := normalizeQuaternion (chainAccum steps)
          euler := quaternionToEuler (normalizeQuaternion (chainAccum steps))
          matrix := quaternionToMatrix (normalizeQuaternion (chainAccum steps)) }) ∧
    (computeRotationChain []).quaternion = identityQuaternion := by
  refine ⟨rfl, ?_, fun _ => rfl, ?_⟩
  · intro steps s
    simp [chainAccum, List.foldl_append]
  · show normalizeQuaternion (chainAccum []) = identityQuaternion
    have : chainAccum [] = identityQuaternion := rfl
    rw [this, normalizeQuaternion_of_mag_one _ quatMag_identity]

/-! ## C4 — normalization -/

/-- C4: when `|q| < 1e-10`, `normalizeQuaternion` returns exactly the identity
quaternion (a silent fallback, no error); otherwise it divides every component
by the magnitude and the result has magnitude exactly 1 (hence within 1e-9
of 1). -/
theorem normalize_spec (q : Quaternion) :
    (quatMag q < 1e-10 → normalizeQuaternion q = identityQuaternion) ∧
    (¬ quatMag q < 1e-10 →
      normalizeQuaternion q =
        ⟨q.x / quatMag q, q.y / quatMag q, q.z / quatMag q, q.w / quatMag q⟩ ∧
      quatMag (normalizeQuaternion q) = 1 ∧
      |quatMag (normalizeQuaternion q) - 1| ≤ 1e-9) := by
  constructor
  · intro h
    simp only [normalizeQuaternion, if_pos h]
  · intro h
    have hpos : (0 : ℝ) < quatMag q := lt_of_lt_of_le (by norm_num) (not_lt.mp h)
    have hne : quatMag q ≠ 0 := ne_of_gt hpos
    have hval : normalizeQuaternion q =
        ⟨q.x / quatMag q, q.y / quatMag q, q.z / quatMag q, q.w / quatMag q⟩ := by
      simp only [normalizeQuaternion, if_neg h]
    refine ⟨hval, ?_, ?_⟩
    · rw [hval]
      exact quatMag_div_self q hne
    · rw [hval, quatMag_div_self q hne]
      norm_num

theorem normalize_spec_witness :
    normalizeQuaternion ⟨0, 0, 0, 0⟩ = identityQuaternion ∧
    quatMag (normalizeQuaternion ⟨0, 0, 0, 2⟩) = 1 := by
  have hz : quatMag (⟨0, 0, 0, 0⟩ : Quaternion) < 1e-10 := by
    unfold quatMag
    norm_num
  have h2 : quatMag (⟨0, 0, 0, 2⟩ : Quaternion) = 2 := by
    unfold quatMag
    rw [show (0 : ℝ) * 0 + 0 * 0 + 0 * 0 + 2 * 2 = 2 ^ 2 by norm_num,
      Real.sqrt_sq (by norm_num)]
  exact ⟨(normalize_spec ⟨0, 0, 0, 0⟩).1 hz,
    ((normalize_spec ⟨0, 0, 0, 2⟩).2 (by rw [h2]; norm_num)).2.1⟩

/-! ## C5 — four 90° steps return exactly -/

set_option maxRecDepth 40000 in
/-- C5: applying the 90° permutation step `applyRotation` four times with the
same axis and sign returns exactly the original mapping, for every mapping,
axis and sign (the update is a discrete signed-label permutation, so no
floating-point drift is possible); in particular four positive X steps from
the identity mapping return exactly the identity mapping. -/
theorem ninety_degree_period_four :
    (∀ (m : AxisMapping) (axis : Axis) (positive : Bool),
      applyRotation (applyRotation (applyRotation (applyRotation m axis positive)
        axis positive) axis positive) axis positive = m) ∧
    applyRotation (applyRotation (applyRotation (applyRotation IDENTITY_MAPPING
      Axis.x true) Axis.x true) Axis.x true) Axis.x true = IDENTITY_MAPPING := by
  constructor
  · decide
  · decide

/-! ## C8 — the reachable-mapping invariant -/

set_option maxRecDepth 40000 in
/-- C8: every mapping reachable from the identity mapping by `applyRotation`
steps has mutually orthogonal signed-unit-axis images forming a right-handed
frame (the matrix with those images as columns is a proper rotation with
determinant +1), and every `applyRotation` step preserves this invariant. -/
theorem mapping_invariant :
    (∀ m : AxisMapping, ReachableMapping m → ProperMapping m) ∧
    (∀ (m : AxisMapping) (axis : Axis) (positive : Bool),
      ProperMapping m → ProperMapping (applyRotation m axis positive)) := by
  have hstep : ∀ (m : AxisMapping) (axis : Axis) (positive : Bool),
      ProperMapping m → ProperMapping (applyRotation m axis positive) := by decide
  refine ⟨?_, hstep⟩
  intro m h
  induction h with
  | base => decide
  | step axis positive _ ih => exact hstep _ axis positive ih

theorem mapping_invariant_witness :
    ProperMapping IDENTITY_MAPPING ∧
    ProperMapping (applyRotation IDENTITY_MAPPING Axis.x true) := by
  exact ⟨mapping_invariant.1 IDENTITY_MAPPING ReachableMapping.base,
    mapping_invariant.2 IDENTITY_MAPPING Axis.x true (by decide)⟩

/-! ## C6 — matrix validation classification -/

/-- C6: `validateRotationMatrix` classifies by mutually exclusive checks in
order — `|det| < 1e-10` fails `Singular` with no repair, else `det < 0` fails
`ImproperRotation` with no repair, else a maximum `R·Rᵀ` deviation above 0.01
fails `NotOrthonormal` with repair offered, else valid; the identity matrix
is valid and negating one column of it (det = −1) fails `ImproperRotation`. -/
theorem validate_matrix_spec :
    (∀ m : RotationMatrix,
      (|detM m| < 1e-10 →
        validateRotationMatrix m = .invalid .singular false) ∧
      (¬ |detM m| < 1e-10 → detM m < 0 →
        validateRotationMatrix m = .invalid .improperRotation false) ∧
      (¬ |detM m| < 1e-10 → ¬ detM m < 0 → orthoMaxError m > 0.01 →
        validateRotationMatrix m = .invalid .notOrthonormal true) ∧
      (¬ |detM m| < 1e-10 → ¬ detM m < 0 → ¬ orthoMaxError m > 0.01 →
        validateRotationMatrix m = .valid)) ∧
    validateRotationMatrix ⟨1, 0, 0, 0, 1, 0, 0, 0, 1⟩ = .valid ∧
    validateRotationMatrix ⟨-1, 0, 0, 0, 1, 0, 0, 0, 1⟩ =
      .invalid .improperRotation false := by
  refine ⟨fun m => ⟨?_, ?_, ?_, ?_⟩, ?_, ?_⟩
  · intro h1
    simp only [validateRotationMatrix]
    rw [if_pos h1]
  · intro h1 h2
    simp only [validateRotationMatrix]
    rw [if_neg h1, if_pos h2]
  · intro h1 h2 h3
    simp only [validateRotationMatrix]
    rw [if_neg h1, if_neg h2, if_pos h3]
  · intro h1 h2 h3
    simp only [validateRotationMatrix]
    rw [if_neg h1, if_neg h2, if_neg h3]
  · norm_num [validateRotationMatrix, detM, orthoMaxError, max_def]
  · norm_num [validateRotationMatrix, detM, orthoMaxError, max_def]

theorem validate_matrix_spec_witness :
    validateRotationMatrix ⟨0, 0, 0, 0, 0, 0, 0, 0, 0⟩ = .invalid .singular false ∧
    validateRotationMatrix ⟨-1, 0, 0, 0, 1, 0, 0, 0, 1⟩ =
      .invalid .improperRotation false ∧
    validateRotationMatrix ⟨2, 0, 0, 0, 2, 0, 0, 0, 2⟩ =
      .invalid .notOrthonormal true ∧
    validateRotationMatrix ⟨1, 0, 0, 0, 1, 0, 0, 0, 1⟩ = .valid := by
  refine ⟨(validate_matrix_spec.1 _).1 ?_,
    (validate_matrix_spec.1 _).2.1 ?_ ?_,
    (validate_matrix_spec.1 _).2.2.1 ?_ ?_ ?_,
    (validate_matrix_spec.1 _).2.2.2 ?_ ?_ ?_⟩ <;>
    norm_num [detM, orthoMaxError, max_def]

/-! ## Vector helpers for Gram–Schmidt -/

theorem dot3_self_nonneg (v : Vec3) : 0 ≤ dot3 v v := by
  simp only [dot3]
  nlinarith [mul_self_nonneg v.a, mul_self_nonneg v.b, mul_self_nonneg v.c]

theorem cauchy3 (u v : Vec3) : dot3 u v * dot3 u v ≤ dot3 u u * dot3 v v := by
  simp only [dot3]
  nlinarith [sq_nonneg (u.a * v.b - u.b * v.a), sq_nonneg (u.a * v.c - u.c * v.a),
    sq_nonneg (u.b * v.c - u.c * v.b)]

theorem lagrange3 (u v : Vec3) :
    dot3 (cross3 u v) (cross3 u v) = dot3 u u * dot3 v v - dot3 u v * dot3 u v := by
  simp only [dot3, cross3]
  ring

theorem dot3_cross_left (u v : Vec3) : dot3 u (cross3 u v) = 0 := by
  simp only [dot3, cross3]
  ring

theorem dot3_cross_right (u v : Vec3) : dot3 v (cross3 u v) = 0 := by
  simp only [dot3, cross3]
  ring

theorem det_columns (u v w : Vec3) :
    detM ⟨u.a, v.a, w.a, u.b, v.b, w.b, u.c, v.c, w.c⟩ = dot3 w (cross3 u v) := by
  simp only [detM, dot3, cross3]
  ring

theorem normalize3_big (v : Vec3) (h : 1e-20 < dot3 v v) :
    normalize3 v = ⟨v.a / Real.sqrt (dot3 v v), v.b / Real.sqrt (dot3 v v),
      v.c / Real.sqrt (dot3 v v)⟩ ∧
    dot3 (normalize3 v) (normalize3 v) = 1 := by
  have hpos : 0 < dot3 v v := lt_trans (by norm_num) h
  have hcond : Real.sqrt (dot3 v v) > 1e-10 := by
    have h1 : ((1e-10 : ℝ)) ^ 2 < dot3 v v := by nlinarith
    calc (1e-10 : ℝ) = Real.sqrt ((1e-10 : ℝ) ^ 2) := by
          rw [Real.sqrt_sq (by norm_num)]
      _ < Real.sqrt (dot3 v v) := Real.sqrt_lt_sqrt (by positivity) h1
  have hL2 : Real.sqrt (dot3 v v) * Real.sqrt (dot3 v v) = dot3 v v :=
    Real.mul_self_sqrt hpos.le
  have hLne : Real.sqrt (dot3 v v) ≠ 0 := by positivity
  have heq : normalize3 v = ⟨v.a / Real.sqrt (dot3 v v), v.b / Real.sqrt (dot3 v v),
      v.c / Real.sqrt (dot3 v v)⟩ := by
    simp only [normalize3]
    rw [if_pos hcond]
  refine ⟨heq, ?_⟩
  rw [heq]
  simp only [dot3] at hL2 hLne ⊢
  field_simp
  linear_combination (-1 : ℝ) * hL2

theorem dot3_div (u v : Vec3) (s : ℝ) :
    dot3 u ⟨v.a / s, v.b / s, v.c / s⟩ = dot3 u v / s := by
  simp only [dot3]
  ring

theorem dot3_comm (u v : Vec3) : dot3 u v = dot3 v u := by
  simp only [dot3]
  ring

theorem dot3_sub3 (u v : Vec3) (s : ℝ) :
    dot3 (sub3 v u s) (sub3 v u s) =
      dot3 v v - 2 * s * dot3 v u + s * s * dot3 u u := by
  simp only [dot3, sub3]
  ring

theorem sub3_orth (u v : Vec3) (h : dot3 u u = 1) :
    dot3 u (sub3 v u (dot3 v u)) = 0 := by
  simp only [dot3, sub3] at h ⊢
  linear_combination (-(v.a * u.a + v.b * u.b + v.c * u.c)) * h

/-! ## Half-angle identities for the Euler round trip

`w,x,y,z` below are the components built by `eulerToQuaternion` from the
half-angle sines/cosines `sr,cr,sp,cp,sy,cy`; the identities express the
combinations read back by `quaternionToEuler` in double-angle form. -/

theorem euler_mag (sr cr sp cp sy cy : ℝ)
    (hr : sr ^ 2 + cr ^ 2 = 1) (hp : sp ^ 2 + cp ^ 2 = 1) (hy : sy ^ 2 + cy ^ 2 = 1) :
    (sr * cp * cy - cr * sp * sy) * (sr * cp * cy - cr * sp * sy) +
    (cr * sp * cy + sr * cp * sy) * (cr * sp * cy + sr * cp * sy) +
    (cr * cp * sy - sr * sp * cy) * (cr * cp * sy - sr * sp * cy) +
    (cr * cp * cy + sr * sp * sy) * (cr * cp * cy + sr * sp * sy) = 1 := by
  linear_combination ((sp ^ 2 + cp ^ 2) * (sy ^ 2 + cy ^ 2)) * hr +
    (sy ^ 2 + cy ^ 2) * hp + hy

theorem euler_ident1 (sr cr sp cp sy cy : ℝ)
    (hp : sp ^ 2 + cp ^ 2 = 1) (hy : sy ^ 2 + cy ^ 2 = 1) :
    2 * ((cr * cp * cy + sr * sp * sy) * (sr * cp * cy - cr * sp * sy) +
      (cr * sp * cy + sr * cp * sy) * (cr * cp * sy - sr * sp * cy)) =
    (2 * sr * cr) * (2 * cp ^ 2 - 1) := by
  linear_combination (2 * sr * cr * (cp ^ 2 - sp ^ 2)) * hy + (-(2 * sr * cr)) * hp

theorem euler_ident2 (sr cr sp cp sy cy : ℝ)
    (hr : sr ^ 2 + cr ^ 2 = 1) (hp : sp ^ 2 + cp ^ 2 = 1) (hy : sy ^ 2 + cy ^ 2 = 1) :
    1 - 2 * ((sr * cp * cy - cr * sp * sy) * (sr * cp * cy - cr * sp * sy) +
      (cr * sp * cy + sr * cp * sy) * (cr * sp * cy + sr * cp * sy)) =
    (2 * cr ^ 2 - 1) * (2 * cp ^ 2 - 1) := by
  linear_combination (-(2 * cp ^ 2)) * hr + (-(2 * cr ^ 2)) * hp +
    (-(2 * (sr ^ 2 * cp ^ 2 + cr ^ 2 * sp ^ 2))) * hy

theorem euler_ident3 (sr cr sp cp sy cy : ℝ)
    (hr : sr ^ 2 + cr ^ 2 = 1) (hy : sy ^ 2 + cy ^ 2 = 1) :
    2 * ((cr * cp * cy + sr * sp * sy) * (cr * sp * cy + sr * cp * sy) -
      (cr * cp * sy - sr * sp * cy) * (sr * cp * cy - cr * sp * sy)) =
    2 * sp * cp := by
  linear_combination (2 * sp * cp * (sy ^ 2 + cy ^ 2)) * hr + (2 * sp * cp) * hy

theorem euler_ident4 (sr cr sp cp sy cy : ℝ)
    (hr : sr ^ 2 + cr ^ 2 = 1) (hp : sp ^ 2 + cp ^ 2 = 1) :
    2 * ((cr * cp * cy + sr * sp * sy) * (cr * cp * sy - sr * sp * cy) +
      (sr * cp * cy - cr * sp * sy) * (cr * sp * cy + sr * cp * sy)) =
    (2 * sy * cy) * (2 * cp ^ 2 - 1) := by
  linear_combination (2 * sy * cy * (cp ^ 2 - sp ^ 2)) * hr + (-(2 * sy * cy)) * hp

theorem euler_ident5 (sr cr sp cp sy cy : ℝ)
    (hr : sr ^ 2 + cr ^ 2 = 1) (hp : sp ^ 2 + cp ^ 2 = 1) (hy : sy ^ 2 + cy ^ 2 = 1) :
    1 - 2 * ((cr * sp * cy + sr * cp * sy) * (cr * sp * cy + sr * cp * sy) +
      (cr * cp * sy - sr * sp * cy) * (cr * cp * sy - sr * sp * cy)) =
    (2 * cy ^ 2 - 1) * (2 * cp ^ 2 - 1) := by
  linear_combination (-(2 * (sp ^ 2 * cy ^ 2 + cp ^ 2 * sy ^ 2))) * hr +
    (-(2 * cy ^ 2)) * hp + (-(2 * cp ^ 2)) * hy

theorem atan2_cos_sin (θ c : ℝ) (hc : 0 < c) (hθ : θ ∈ Set.Ioc (-Real.pi) Real.pi) :
    atan2 (Real.sin θ * c) (Real.cos θ * c) = θ := by
  unfold atan2
  have hmk : (⟨Real.cos θ * c, Real.sin θ * c⟩ : ℂ) =
      (c : ℂ) * (Complex.cos θ + Complex.sin θ * Complex.I) := by
    rw [Complex.mk_eq_add_mul_I, ← Complex.ofReal_cos, ← Complex.ofReal_sin]
    push_cast
    ring
  rw [hmk, Complex.arg_real_mul _ hc]
  exact Complex.arg_cos_add_sin_mul_I hθ

/-! ## C3 — Euler round trip -/

/-- C3 counterexample: the claim quantifies over every Euler-angle value with
pitch strictly inside (−90°, 90°), but `quaternionToEuler` can only return a
roll in (−180°, 180°], so `e = {roll: 360, pitch: 0, yaw: 0}` — which the
claim covers — comes back as roll 0, an error of 360 degrees. -/
theorem euler_roundtrip_counterexample :
    ¬ |(quaternionToEuler (eulerToQuaternion ⟨360, 0, 0⟩)).roll - 360| ≤ 1e-9 := by
  have hq0 : eulerToQuaternion ⟨360, 0, 0⟩ = normalizeQuaternion ⟨0, 0, 0, -1⟩ := by
    simp only [eulerToQuaternion]
    rw [show (360 : ℝ) * DEG_TO_RAD / 2 = Real.pi by unfold DEG_TO_RAD; ring,
      show (0 : ℝ) * DEG_TO_RAD / 2 = 0 by ring,
      Real.cos_pi, Real.sin_pi, Real.cos_zero, Real.sin_zero]
    norm_num
  have hq : eulerToQuaternion ⟨360, 0, 0⟩ = ⟨0, 0, 0, -1⟩ := by
    rw [hq0, normalizeQuaternion_of_mag_one _ (quatMag_eq_one _ (by norm_num))]
  rw [hq]
  have harg : Complex.arg ⟨1, 0⟩ = 0 := by
    rw [show (⟨1, 0⟩ : ℂ) = 1 from rfl]
    exact Complex.arg_one
  simp only [quaternionToEuler, atan2]
  norm_num [harg, Real.arcsin_zero]

/-- C3 amended: for Euler angles with roll and yaw in (−180°, 180°] and pitch
strictly inside (−90°, 90°), `quaternionToEuler (eulerToQuaternion e)`
reproduces `e` — exactly in the real model, hence within 1e-9 per component.
(The original claim is false for roll or yaw outside (−180°, 180°], see the
counterexample.) -/
theorem euler_roundtrip_amended (e : EulerAngles)
    (hr1 : -180 < e.roll) (hr2 : e.roll ≤ 180)
    (hp1 : -90 < e.pitch) (hp2 : e.pitch < 90)
    (hy1 : -180 < e.yaw) (hy2 : e.yaw ≤ 180) :
    quaternionToEuler (eulerToQuaternion e) = e ∧
    |(quaternionToEuler (eulerToQuaternion e)).roll - e.roll| ≤ 1e-9 ∧
    |(quaternionToEuler (eulerToQuaternion e)).pitch - e.pitch| ≤ 1e-9 ∧
    |(quaternionToEuler (eulerToQuaternion e)).yaw - e.yaw| ≤ 1e-9 := by
  obtain ⟨vr, vp, vy⟩ := e
  dsimp only at hr1 hr2 hp1 hp2 hy1 hy2 ⊢
  have hpi := Real.pi_pos
  have hrrad1 : -Real.pi < vr * DEG_TO_RAD := by
    unfold DEG_TO_RAD
    nlinarith [mul_pos (by linarith : (0 : ℝ) < vr + 180) hpi]
  have hrrad2 : vr * DEG_TO_RAD ≤ Real.pi := by
    unfold DEG_TO_RAD
    nlinarith [mul_nonneg (by linarith : (0 : ℝ) ≤ 180 - vr) hpi.le]
  have hyrad1 : -Real.pi < vy * DEG_TO_RAD := by
    unfold DEG_TO_RAD
    nlinarith [mul_pos (by linarith : (0 : ℝ) < vy + 180) hpi]
  have hyrad2 : vy * DEG_TO_RAD ≤ Real.pi := by
    unfold DEG_TO_RAD
    nlinarith [mul_nonneg (by linarith : (0 : ℝ) ≤ 180 - vy) hpi.le]
  have hprad1 : -(Real.pi / 2) < vp * DEG_TO_RAD := by
    unfold DEG_TO_RAD
    nlinarith [mul_pos (by linarith : (0 : ℝ) < vp + 90) hpi]
  have hprad2 : vp * DEG_TO_RAD < Real.pi / 2 := by
    unfold DEG_TO_RAD
    nlinarith [mul_pos (by linarith : (0 : ℝ) < 90 - vp) hpi]
  have hsr : Real.sin (vr * DEG_TO_RAD) =
      2 * Real.sin (vr * DEG_TO_RAD / 2) * Real.cos (vr * DEG_TO_RAD / 2) := by
    have h := Real.sin_two_mul (vr * DEG_TO_RAD / 2)
    rw [show 2 * (vr * DEG_TO_RAD / 2) = vr * DEG_TO_RAD by ring] at h
    exact h
  have hcr : Real.cos (vr * DEG_TO_RAD) = 2 * Real.cos (vr * DEG_TO_RAD / 2) ^ 2 - 1 := by
    have h := Real.cos_two_mul (vr * DEG_TO_RAD / 2)
    rw [show 2 * (vr * DEG_TO_RAD / 2) = vr * DEG_TO_RAD by ring] at h
    exact h
  have hsp : Real.sin (vp * DEG_TO_RAD) =
      2 * Real.sin (vp * DEG_TO_RAD / 2) * Real.cos (vp * DEG_TO_RAD / 2) := by
    have h := Real.sin_two_mul (vp * DEG_TO_RAD / 2)
    rw [show 2 * (vp * DEG_TO_RAD / 2) = vp * DEG_TO_RAD by ring] at h
    exact h
  have hcp : Real.cos (vp * DEG_TO_RAD) = 2 * Real.cos (vp * DEG_TO_RAD / 2) ^ 2 - 1 := by
    have h := Real.cos_two_mul (vp * DEG_TO_RAD / 2)
    rw [show 2 * (vp * DEG_TO_RAD / 2) = vp * DEG_TO_RAD by ring] at h
    exact h
  have hsy : Real.sin (vy * DEG_TO_RAD) =
      2 * Real.sin (vy * DEG_TO_RAD / 2) * Real.cos (vy * DEG_TO_RAD / 2) := by
    have h := Real.sin_two_mul (vy * DEG_TO_RAD / 2)
    rw [show 2 * (vy * DEG_TO_RAD / 2) = vy * DEG_TO_RAD by ring] at h
    exact h
  have hcy : Real.cos (vy * DEG_TO_RAD) = 2 * Real.cos (vy * DEG_TO_RAD / 2) ^ 2 - 1 := by
    have h := Real.cos_two_mul (vy * DEG_TO_RAD / 2)
    rw [show 2 * (vy * DEG_TO_RAD / 2) = vy * DEG_TO_RAD by ring] at h
    exact h
  have hcosp : 0 < Real.cos (vp * DEG_TO_RAD) :=
    Real.cos_pos_of_mem_Ioo ⟨hprad1, hprad2⟩
  have hq : eulerToQuaternion ⟨vr, vp, vy⟩ =
      ⟨Real.sin (vr * DEG_TO_RAD / 2) * Real.cos (vp * DEG_TO_RAD / 2) *
          Real.cos (vy * DEG_TO_RAD / 2) -
        Real.cos (vr * DEG_TO_RAD / 2) * Real.sin (vp * DEG_TO_RAD / 2) *
          Real.sin (vy * DEG_TO_RAD / 2),
       Real.cos (vr * DEG_TO_RAD / 2) * Real.sin (vp * DEG_TO_RAD / 2) *
          Real.cos (vy * DEG_TO_RAD / 2) +
        Real.sin (vr * DEG_TO_RAD / 2) * Real.cos (vp * DEG_TO_RAD / 2) *
          Real.sin (vy * DEG_TO_RAD / 2),
       Real.cos (vr * DEG_TO_RAD / 2) * Real.cos (vp * DEG_TO_RAD / 2) *
          Real.sin (vy * DEG_TO_RAD / 2) -
        Real.sin (vr * DEG_TO_RAD / 2) * Real.sin (vp * DEG_TO_RAD / 2) *
          Real.cos (vy * DEG_TO_RAD / 2),
       Real.cos (vr * DEG_TO_RAD / 2) * Real.cos (vp * DEG_TO_RAD / 2) *
          Real.cos (vy * DEG_TO_RAD / 2) +
        Real.sin (vr * DEG_TO_RAD / 2) * Real.sin (vp * DEG_TO_RAD / 2) *
          Real.sin (vy * DEG_TO_RAD / 2)⟩ := by
    simp only [eulerToQuaternion]
    exact normalizeQuaternion_of_mag_one _ (quatMag_eq_one _
      (euler_mag _ _ _ _ _ _ (Real.sin_sq_add_cos_sq _) (Real.sin_sq_add_cos_sq _)
        (Real.sin_sq_add_cos_sq _)))
  have i1 := euler_ident1 (Real.sin (vr * DEG_TO_RAD / 2)) (Real.cos (vr * DEG_TO_RAD / 2))
    (Real.sin (vp * DEG_TO_RAD / 2)) (Real.cos (vp * DEG_TO_RAD / 2))
    (Real.sin (vy * DEG_TO_RAD / 2)) (Real.cos (vy * DEG_TO_RAD / 2))
    (Real.sin_sq_add_cos_sq _) (Real.sin_sq_add_cos_sq _)
  have i2 := euler_ident2 (Real.sin (vr * DEG_TO_RAD / 2)) (Real.cos (vr * DEG_TO_RAD / 2))
    (Real.sin (vp * DEG_TO_RAD / 2)) (Real.cos (vp * DEG_TO_RAD / 2))
    (Real.sin (vy * DEG_TO_RAD / 2)) (Real.cos (vy * DEG_TO_RAD / 2))
    (Real.sin_sq_add_cos_sq _) (Real.sin_sq_add_cos_sq _) (Real.sin_sq_add_cos_sq _)
  have i3 := euler_ident3 (Real.sin (vr * DEG_TO_RAD / 2)) (Real.cos (vr * DEG_TO_RAD / 2))
    (Real.sin (vp * DEG_TO_RAD / 2)) (Real.cos (vp * DEG_TO_RAD / 2))
    (Real.sin (vy * DEG_TO_RAD / 2)) (Real.cos (vy * DEG_TO_RAD / 2))
    (Real.sin_sq_add_cos_sq _) (Real.sin_sq_add_cos_sq _)
  have i4 := euler_ident4 (Real.sin (vr * DEG_TO_RAD / 2)) (Real.cos (vr * DEG_TO_RAD / 2))
    (Real.sin (vp * DEG_TO_RAD / 2)) (Real.cos (vp * DEG_TO_RAD / 2))
    (Real.sin (vy * DEG_TO_RAD / 2)) (Real.cos (vy * DEG_TO_RAD / 2))
    (Real.sin_sq_add_cos_sq _) (Real.sin_sq_add_cos_sq _)
  have i5 := euler_ident5 (Real.sin (vr * DEG_TO_RAD / 2)) (Real.cos (vr * DEG_TO_RAD / 2))
    (Real.sin (vp * DEG_TO_RAD / 2)) (Real.cos (vp * DEG_TO_RAD / 2))
    (Real.sin (vy * DEG_TO_RAD / 2)) (Real.cos (vy * DEG_TO_RAD / 2))
    (Real.sin_sq_add_cos_sq _) (Real.sin_sq_add_cos_sq _) (Real.sin_sq_add_cos_sq _)
  rw [← hsr, ← hcp] at i1
  rw [← hcr, ← hcp] at i2
  rw [← hsp] at i3
  rw [← hsy, ← hcp] at i4
  rw [← hcy, ← hcp] at i5
  have habs : |Real.sin (vp * DEG_TO_RAD)| < 1 := by
    rw [abs_lt]
    constructor
    · have h1 : Real.sin (-(Real.pi / 2)) < Real.sin (vp * DEG_TO_RAD) :=
        Real.strictMonoOn_sin ⟨le_refl _, by linarith⟩ ⟨by linarith, by linarith⟩ hprad1
      rw [Real.sin_neg, Real.sin_pi_div_two] at h1
      exact h1
    · have h1 : Real.sin (vp * DEG_TO_RAD) < Real.sin (Real.pi / 2) :=
        Real.strictMonoOn_sin ⟨by linarith, by linarith⟩ ⟨by linarith, le_refl _⟩ hprad2
      rw [Real.sin_pi_div_two] at h1
      exact h1
  have hconv : ∀ t : ℝ, t * DEG_TO_RAD * RAD_TO_DEG = t := by
    intro t
    unfold DEG_TO_RAD RAD_TO_DEG
    field_simp
  have heul : quaternionToEuler (eulerToQuaternion ⟨vr, vp, vy⟩) =
      (⟨vr, vp, vy⟩ : EulerAngles) := by
    rw [hq]
    simp only [quaternionToEuler]
    rw [i1, i2, i3, i4, i5,
      atan2_cos_sin _ _ hcosp ⟨hrrad1, hrrad2⟩,
      atan2_cos_sin _ _ hcosp ⟨hyrad1, hyrad2⟩,
      if_neg (not_le.mpr habs),
      Real.arcsin_sin (by linarith) (by linarith),
      hconv, hconv, hconv]
  refine ⟨heul, ?_, ?_, ?_⟩ <;> rw [heul] <;> norm_num

theorem euler_roundtrip_amended_witness :
    quaternionToEuler (eulerToQuaternion ⟨0, 0, 0⟩) = (⟨0, 0, 0⟩ : EulerAngles) :=
  (euler_roundtrip_amended ⟨0, 0, 0⟩ (by norm_num) (by norm_num) (by norm_num)
    (by norm_num) (by norm_num) (by norm_num)).1

/-! ## C9 — non-finite input -/

/-- C9 counterexample: a `NaN` component reaching `validateQuaternion` is not
signalled at all — the validator classifies the quaternion as `valid`
(every IEEE comparison with `NaN` is false, so both failure checks fall
through), refuting the claim that non-finite input reaching the core is
treated as an `InvalidNumber` contract violation. -/
theorem nonfinite_counterexample :
    validateQuaternionJS .nan (.fin 0) (.fin 0) (.fin 0) = .valid := rfl

/-- C9 amended: no core operation checks finiteness and no `InvalidNumber`
classification exists; a non-finite input is silently accepted by
`validateQuaternion` and silently propagated by `normalizeQuaternion`
(a quaternion with one `NaN` component validates as `valid` and normalizes
to all-`NaN` components). -/
theorem nonfinite_silent_propagation :
    validateQuaternionJS .nan (.fin 0) (.fin 0) (.fin 0) = .valid ∧
    normalizeQuaternionJS ⟨.nan, .fin 0, .fin 0, .fin 0⟩ = ⟨.nan, .nan, .nan, .nan⟩ :=
  ⟨rfl, rfl⟩

/-! ## Orthogonal-matrix algebra

For a 3×3 matrix with orthonormal rows and determinant 1, every entry equals
its own cofactor (the adjugate is the transpose), and the columns are
orthonormal as well.  These facts drive the Shepperd round-trip proof and the
row/column transfer for Gram–Schmidt. -/

theorem rot_derived (a00 a01 a02 a10 a11 a12 a20 a21 a22 : ℝ)
    (hR0 : a00 * a00 + a01 * a01 + a02 * a02 = 1)
    (hR1 : a10 * a10 + a11 * a11 + a12 * a12 = 1)
    (hR2 : a20 * a20 + a21 * a21 + a22 * a22 = 1)
    (hD01 : a00 * a10 + a01 * a11 + a02 * a12 = 0)
    (hD02 : a00 * a20 + a01 * a21 + a02 * a22 = 0)
    (hD12 : a10 * a20 + a11 * a21 + a12 * a22 = 0)
    (hdet : a00 * (a11 * a22 - a12 * a21) - a01 * (a10 * a22 - a12 * a20) +
      a02 * (a10 * a21 - a11 * a20) = 1) :
    (a11 * a22 - a12 * a21 = a00) ∧ (a12 * a20 - a10 * a22 = a01) ∧
    (a10 * a21 - a11 * a20 = a02) ∧ (a02 * a21 - a01 * a22 = a10) ∧
    (a00 * a22 - a02 * a20 = a11) ∧ (a01 * a20 - a00 * a21 = a12) ∧
    (a01 * a12 - a02 * a11 = a20) ∧ (a02 * a10 - a00 * a12 = a21) ∧
    (a00 * a11 - a01 * a10 = a22) ∧
    (a00 * a00 + a10 * a10 + a20 * a20 = 1) ∧
    (a01 * a01 + a11 * a11 + a21 * a21 = 1) ∧
    (a02 * a02 + a12 * a12 + a22 * a22 = 1) ∧
    (a00 * a01 + a10 * a11 + a20 * a21 = 0) ∧
    (a00 * a02 + a10 * a12 + a20 * a22 = 0) ∧
    (a01 * a02 + a11 * a12 + a21 * a22 = 0) := by
  have he00 : a11 * a22 - a12 * a21 = a00 := by
    linear_combination (-(a11 * a22 - a12 * a21)) * hR0 +
      (-(a02 * a21 - a01 * a22)) * hD01 + (-(a01 * a12 - a02 * a11)) * hD02 + a00 * hdet
  have he01 : a12 * a20 - a10 * a22 = a01 := by
    linear_combination (-(a12 * a20 - a10 * a22)) * hR0 +
      (-(a00 * a22 - a02 * a20)) * hD01 + (-(a02 * a10 - a00 * a12)) * hD02 + a01 * hdet
  have he02 : a10 * a21 - a11 * a20 = a02 := by
    linear_combination (-(a10 * a21 - a11 * a20)) * hR0 +
      (-(a01 * a20 - a00 * a21)) * hD01 + (-(a00 * a11 - a01 * a10)) * hD02 + a02 * hdet
  have he10 : a02 * a21 - a01 * a22 = a10 := by
    linear_combination (-(a11 * a22 - a12 * a21)) * hD01 +
      (-(a02 * a21 - a01 * a22)) * hR1 + (-(a01 * a12 - a02 * a11)) * hD12 + a10 * hdet
  have he11 : a00 * a22 - a02 * a20 = a11 := by
    linear_combination (-(a12 * a20 - a10 * a22)) * hD01 +
      (-(a00 * a22 - a02 * a20)) * hR1 + (-(a02 * a10 - a00 * a12)) * hD12 + a11 * hdet
  have he12 : a01 * a20 - a00 * a21 = a12 := by
    linear_combination (-(a10 * a21 - a11 * a20)) * hD01 +
      (-(a01 * a20 - a00 * a21)) * hR1 + (-(a00 * a11 - a01 * a10)) * hD12 + a12 * hdet
  have he20 : a01 * a12 - a02 * a11 = a20 := by
    linear_combination (-(a11 * a22 - a12 * a21)) * hD02 +
      (-(a02 * a21 - a01 * a22)) * hD12 + (-(a01 * a12 - a02 * a11)) * hR2 + a20 * hdet
  have he21 : a02 * a10 - a00 * a12 = a21 := by
    linear_combination (-(a12 * a20 - a10 * a22)) * hD02 +
      (-(a00 * a22 - a02 * a20)) * hD12 + (-(a02 * a10 - a00 * a12)) * hR2 + a21 * hdet
  have he22 : a00 * a11 - a01 * a10 = a22 := by
    linear_combination (-(a10 * a21 - a11 * a20)) * hD02 +
      (-(a01 * a20 - a00 * a21)) * hD12 + (-(a00 * a11 - a01 * a10)) * hR2 + a22 * hdet
  refine ⟨he00, he01, he02, he10, he11, he12, he20, he21, he22, ?_, ?_, ?_, ?_, ?_, ?_⟩
  · linear_combination (-a00) * he00 + (-a10) * he10 + (-a20) * he20 + hdet
  · linear_combination (-a01) * he01 + (-a11) * he11 + (-a21) * he21 + hdet
  · linear_combination (-a02) * he02 + (-a12) * he12 + (-a22) * he22 + hdet
  · linear_combination (-a01) * he00 + (-a11) * he10 + (-a21) * he20
  · linear_combination (-a02) * he00 + (-a12) * he10 + (-a22) * he20
  · linear_combination (-a02) * he01 + (-a12) * he11 + (-a22) * he21

/-- For a proper rotation matrix, the symmetric 4×4 array
`[[δw,A,B,C],[A,δx,P,R],[B,P,δy,Q],[C,R,Q,δz]]` — where `δw = 1+trace`,
`δx = 1+a00-a11-a22`, `δy = 1-a00+a11-a22`, `δz = 1-a00-a11+a22`,
`A = a21-a12`, `B = a02-a20`, `C = a10-a01`, `P = a01+a10`, `R = a02+a20`,
`Q = a12+a21` — has rank one (it is four times the outer square of the
underlying unit quaternion), so all its 2×2 minors vanish.  These equalities
are exactly what each Shepperd branch needs. -/
theorem rot_gram (a00 a01 a02 a10 a11 a12 a20 a21 a22 : ℝ)
    (hR0 : a00 * a00 + a01 * a01 + a02 * a02 = 1)
    (hR1 : a10 * a10 + a11 * a11 + a12 * a12 = 1)
    (hR2 : a20 * a20 + a21 * a21 + a22 * a22 = 1)
    (hD01 : a00 * a10 + a01 * a11 + a02 * a12 = 0)
    (hD02 : a00 * a20 + a01 * a21 + a02 * a22 = 0)
    (hD12 : a10 * a20 + a11 * a21 + a12 * a22 = 0)
    (hdet : a00 * (a11 * a22 - a12 * a21) - a01 * (a10 * a22 - a12 * a20) +
      a02 * (a10 * a21 - a11 * a20) = 1) :
    ((1 + a00 + a11 + a22) * (1 + a00 - a11 - a22) = (a21 - a12) ^ 2) ∧
    ((1 + a00 + a11 + a22) * (1 - a00 + a11 - a22) = (a02 - a20) ^ 2) ∧
    ((1 + a00 + a11 + a22) * (1 - a00 - a11 + a22) = (a10 - a01) ^ 2) ∧
    ((1 + a00 - a11 - a22) * (1 - a00 + a11 - a22) = (a01 + a10) ^ 2) ∧
    ((1 + a00 - a11 - a22) * (1 - a00 - a11 + a22) = (a02 + a20) ^ 2) ∧
    ((1 - a00 + a11 - a22) * (1 - a00 - a11 + a22) = (a12 + a21) ^ 2) ∧
    ((1 + a00 + a11 + a22) * (a01 + a10) = (a21 - a12) * (a02 - a20)) ∧
    ((1 + a00 + a11 + a22) * (a12 + a21) = (a02 - a20) * (a10 - a01)) ∧
    ((1 + a00 + a11 + a22) * (a02 + a20) = (a21 - a12) * (a10 - a01)) ∧
    ((1 + a00 - a11 - a22) * (a02 - a20) = (a21 - a12) * (a01 + a10)) ∧
    ((1 + a00 - a11 - a22) * (a10 - a01) = (a21 - a12) * (a02 + a20)) ∧
    ((1 + a00 - a11 - a22) * (a12 + a21) = (a01 + a10) * (a02 + a20)) ∧
    ((1 - a00 + a11 - a22) * (a21 - a12) = (a02 - a20) * (a01 + a10)) ∧
    ((1 - a00 + a11 - a22) * (a10 - a01) = (a02 - a20) * (a12 + a21)) ∧
    ((1 - a00 + a11 - a22) * (a02 + a20) = (a01 + a10) * (a12 + a21)) ∧
    ((1 - a00 - a11 + a22) * (a21 - a12) = (a10 - a01) * (a02 + a20)) ∧
    ((1 - a00 - a11 + a22) * (a02 - a20) = (a10 - a01) * (a12 + a21)) ∧
    ((1 - a00 - a11 + a22) * (a01 + a10) = (a12 + a21) * (a02 + a20)) := by
  obtain ⟨he00, he01, he02, he10, he11, he12, he20, he21, he22,
      hK0, hK1, hK2, hE01, hE02, hE12⟩ :=
    rot_derived a00 a01 a02 a10 a11 a12 a20 a21 a22 hR0 hR1 hR2 hD01 hD02 hD12 hdet
  refine ⟨?_, ?_, ?_, ?_, ?_, ?_, ?_, ?_, ?_, ?_, ?_, ?_, ?_, ?_, ?_, ?_, ?_, ?_⟩
  · linear_combination hR0 - hK1 - hK2 - 2 * he00
  · linear_combination hK1 - hR0 - hR2 - 2 * he11
  · linear_combination hK2 - hR0 - hR1 - 2 * he22
  · linear_combination hR2 - hK0 - hK1 + 2 * he22
  · linear_combination hR1 - hK0 - hK2 + 2 * he11
  · linear_combination hR0 - hK1 - hK2 + 2 * he00
  · linear_combination (-1) * he01 - he10 + hD01 + hE01
  · linear_combination (-1) * he12 - he21 + hD12 + hE12
  · linear_combination (-1) * he02 - he20 + hD02 + hE02
  · linear_combination (-1) * he02 + he20 - hD02 + hE02
  · linear_combination he01 - he10 + hD01 - hE01
  · linear_combination (-1) * he12 - he21 - hD12 - hE12
  · linear_combination he12 - he21 + hD12 - hE12
  · linear_combination he01 - he10 - hD01 + hE01
  · linear_combination (-1) * he02 - he20 - hD02 - hE02
  · linear_combination he12 - he21 - hD12 + hE12
  · linear_combination (-1) * he02 + he20 + hD02 - hE02
  · linear_combination (-1) * he01 - he10 - hD01 - hE01

/-- Shepperd branch 1 (`trace > 0`) reproduces the input matrix exactly. -/
theorem shepperd_w (m : RotationMatrix) (h : IsProperRotation m)
    (ht : m.m00 + m.m11 + m.m22 > 0) :
    quaternionToMatrix (normalizeQuaternion
      ⟨(m.m21 - m.m12) * (0.5 / Real.sqrt (m.m00 + m.m11 + m.m22 + 1)),
       (m.m02 - m.m20) * (0.5 / Real.sqrt (m.m00 + m.m11 + m.m22 + 1)),
       (m.m10 - m.m01) * (0.5 / Real.sqrt (m.m00 + m.m11 + m.m22 + 1)),
       0.25 / (0.5 / Real.sqrt (m.m00 + m.m11 + m.m22 + 1))⟩) = m := by
  obtain ⟨hR0, hR1, hR2, hD01, hD02, hD12, hdet0⟩ := h
  have hdet : m.m00 * (m.m11 * m.m22 - m.m12 * m.m21) -
      m.m01 * (m.m10 * m.m22 - m.m12 * m.m20) +
      m.m02 * (m.m10 * m.m21 - m.m11 * m.m20) = 1 := hdet0
  obtain ⟨g1, g2, g3, g4, g5, g6, g7, g8, g9, g10, g11, g12, g13, g14, g15, g16, g17, g18⟩ :=
    rot_gram m.m00 m.m01 m.m02 m.m10 m.m11 m.m12 m.m20 m.m21 m.m22
      hR0 hR1 hR2 hD01 hD02 hD12 hdet
  generalize hstg : Real.sqrt (m.m00 + m.m11 + m.m22 + 1) = st
  have hst2 : st * st = m.m00 + m.m11 + m.m22 + 1 := by
    rw [← hstg]
    exact Real.mul_self_sqrt (by linarith)
  have hstpos : 0 < st := by
    rw [← hstg]
    exact Real.sqrt_pos.mpr (by linarith)
  have hstne : st ≠ 0 := ne_of_gt hstpos
  have hW : (0.25 : ℝ) / (0.5 / st) =
      (m.m00 + m.m11 + m.m22 + 1) * (0.5 / st) := by
    field_simp
    linear_combination (0.25 : ℝ) * hst2
  rw [hW]
  generalize hkg : (0.5 : ℝ) / st = k
  have hkne : k ≠ 0 := by
    rw [← hkg]
    positivity
  have hk4 : 4 * (m.m00 + m.m11 + m.m22 + 1) * (k * k) = 1 := by
    rw [← hkg]
    field_simp
    linear_combination (-1 : ℝ) * hst2
  have hmag : quatMag
      ⟨(m.m21 - m.m12) * k, (m.m02 - m.m20) * k, (m.m10 - m.m01) * k,
        (m.m00 + m.m11 + m.m22 + 1) * k⟩ = 1 := by
    apply quatMag_eq_one
    show (m.m21 - m.m12) * k * ((m.m21 - m.m12) * k) +
      (m.m02 - m.m20) * k * ((m.m02 - m.m20) * k) +
      (m.m10 - m.m01) * k * ((m.m10 - m.m01) * k) +
      (m.m00 + m.m11 + m.m22 + 1) * k * ((m.m00 + m.m11 + m.m22 + 1) * k) = 1
    linear_combination (-(k * k)) * g1 - (k * k) * g2 - (k * k) * g3 + hk4
  rw [normalizeQuaternion_of_mag_one _ hmag]
  refine RotationMatrix.ext ?_ ?_ ?_ ?_ ?_ ?_ ?_ ?_ ?_ <;>
    simp only [quaternionToMatrix]
  · linear_combination (2 * (k * k)) * g2 + (2 * (k * k)) * g3 + (m.m00 - 1) * hk4
  · linear_combination (-(2 * (k * k))) * g7 + m.m01 * hk4
  · linear_combination (-(2 * (k * k))) * g9 + m.m02 * hk4
  · linear_combination (-(2 * (k * k))) * g7 + m.m10 * hk4
  · linear_combination (2 * (k * k)) * g1 + (2 * (k * k)) * g3 + (m.m11 - 1) * hk4
  · linear_combination (-(2 * (k * k))) * g8 + m.m12 * hk4
  · linear_combination (-(2 * (k * k))) * g9 + m.m20 * hk4
  · linear_combination (-(2 * (k * k))) * g8 + m.m21 * hk4
  · linear_combination (2 * (k * k)) * g1 + (2 * (k * k)) * g2 + (m.m22 - 1) * hk4

/-- Shepperd branch 2 (`m00` dominant) reproduces the input matrix exactly. -/
theorem shepperd_x (m : RotationMatrix) (h : IsProperRotation m)
    (hd : 0 < 1 + m.m00 - m.m11 - m.m22) :
    quaternionToMatrix (normalizeQuaternion
      ⟨0.25 * (2 * Real.sqrt (1 + m.m00 - m.m11 - m.m22)),
       (m.m01 + m.m10) / (2 * Real.sqrt (1 + m.m00 - m.m11 - m.m22)),
       (m.m02 + m.m20) / (2 * Real.sqrt (1 + m.m00 - m.m11 - m.m22)),
       (m.m21 - m.m12) / (2 * Real.sqrt (1 + m.m00 - m.m11 - m.m22))⟩) = m := by
  obtain ⟨hR0, hR1, hR2, hD01, hD02, hD12, hdet0⟩ := h
  have hdet : m.m00 * (m.m11 * m.m22 - m.m12 * m.m21) -
      m.m01 * (m.m10 * m.m22 - m.m12 * m.m20) +
      m.m02 * (m.m10 * m.m21 - m.m11 * m.m20) = 1 := hdet0
  obtain ⟨g1, g2, g3, g4, g5, g6, g7, g8, g9, g10, g11, g12, g13, g14, g15, g16, g17, g18⟩ :=
    rot_gram m.m00 m.m01 m.m02 m.m10 m.m11 m.m12 m.m20 m.m21 m.m22
      hR0 hR1 hR2 hD01 hD02 hD12 hdet
  generalize hstg : Real.sqrt (1 + m.m00 - m.m11 - m.m22) = st
  have hst2 : st * st = 1 + m.m00 - m.m11 - m.m22 := by
    rw [← hstg]
    exact Real.mul_self_sqrt (by linarith)
  have hstpos : 0 < st := by
    rw [← hstg]
    exact Real.sqrt_pos.mpr (by linarith)
  have hstne : st ≠ 0 := ne_of_gt hstpos
  have hX : (0.25 : ℝ) * (2 * st) = (1 + m.m00 - m.m11 - m.m22) * (0.5 / st) := by
    field_simp
    linear_combination (0.5 : ℝ) * hst2
  have hY : (m.m01 + m.m10) / (2 * st) = (m.m01 + m.m10) * (0.5 / st) := by ring
  have hZ : (m.m02 + m.m20) / (2 * st) = (m.m02 + m.m20) * (0.5 / st) := by ring
  have hWc : (m.m21 - m.m12) / (2 * st) = (m.m21 - m.m12) * (0.5 / st) := by ring
  rw [hX, hY, hZ, hWc]
  generalize hkg : (0.5 : ℝ) / st = k
  have hk4 : 4 * (1 + m.m00 - m.m11 - m.m22) * (k * k) = 1 := by
    rw [← hkg]
    field_simp
    linear_combination (-1 : ℝ) * hst2
  have hmag : quatMag
      ⟨(1 + m.m00 - m.m11 - m.m22) * k, (m.m01 + m.m10) * k, (m.m02 + m.m20) * k,
        (m.m21 - m.m12) * k⟩ = 1 := by
    apply quatMag_eq_one
    show (1 + m.m00 - m.m11 - m.m22) * k * ((1 + m.m00 - m.m11 - m.m22) * k) +
      (m.m01 + m.m10) * k * ((m.m01 + m.m10) * k) +
      (m.m02 + m.m20) * k * ((m.m02 + m.m20) * k) +
      (m.m21 - m.m12) * k * ((m.m21 - m.m12) * k) = 1
    linear_combination (-(k * k)) * g1 - (k * k) * g4 - (k * k) * g5 + hk4
  rw [normalizeQuaternion_of_mag_one _ hmag]
  refine RotationMatrix.ext ?_ ?_ ?_ ?_ ?_ ?_ ?_ ?_ ?_ <;>
    simp only [quaternionToMatrix]
  · linear_combination (2 * (k * k)) * g4 + (2 * (k * k)) * g5 + (m.m00 - 1) * hk4
  · linear_combination (2 * (k * k)) * g11 + m.m01 * hk4
  · linear_combination (-(2 * (k * k))) * g10 + m.m02 * hk4
  · linear_combination (-(2 * (k * k))) * g11 + m.m10 * hk4
  · linear_combination (2 * (k * k)) * g5 + (m.m11 - 1) * hk4
  · linear_combination (-(2 * (k * k))) * g12 + m.m12 * hk4
  · linear_combination (2 * (k * k)) * g10 + m.m20 * hk4
  · linear_combination (-(2 * (k * k))) * g12 + m.m21 * hk4
  · linear_combination (2 * (k * k)) * g4 + (m.m22 - 1) * hk4

/-- Shepperd branch 3 (`m11` dominant) reproduces the input matrix exactly. -/
theorem shepperd_y (m : RotationMatrix) (h : IsProperRotation m)
    (hd : 0 < 1 + m.m11 - m.m00 - m.m22) :
    quaternionToMatrix (normalizeQuaternion
      ⟨(m.m01 + m.m10) / (2 * Real.sqrt (1 + m.m11 - m.m00 - m.m22)),
       0.25 * (2 * Real.sqrt (1 + m.m11 - m.m00 - m.m22)),
       (m.m12 + m.m21) / (2 * Real.sqrt (1 + m.m11 - m.m00 - m.m22)),
       (m.m02 - m.m20) / (2 * Real.sqrt (1 + m.m11 - m.m00 - m.m22))⟩) = m := by
  obtain ⟨hR0, hR1, hR2, hD01, hD02, hD12, hdet0⟩ := h
  have hdet : m.m00 * (m.m11 * m.m22 - m.m12 * m.m21) -
      m.m01 * (m.m10 * m.m22 - m.m12 * m.m20) +
      m.m02 * (m.m10 * m.m21 - m.m11 * m.m20) = 1 := hdet0
  obtain ⟨g1, g2, g3, g4, g5, g6, g7, g8, g9, g10, g11, g12, g13, g14, g15, g16, g17, g18⟩ :=
    rot_gram m.m00 m.m01 m.m02 m.m10 m.m11 m.m12 m.m20 m.m21 m.m22
      hR0 hR1 hR2 hD01 hD02 hD12 hdet
  generalize hstg : Real.sqrt (1 + m.m11 - m.m00 - m.m22) = st
  have hst2 : st * st = 1 + m.m11 - m.m00 - m.m22 := by
    rw [← hstg]
    exact Real.mul_self_sqrt (by linarith)
  have hstpos : 0 < st := by
    rw [← hstg]
    exact Real.sqrt_pos.mpr (by linarith)
  have hstne : st ≠ 0 := ne_of_gt hstpos
  have hY : (0.25 : ℝ) * (2 * st) = (1 + m.m11 - m.m00 - m.m22) * (0.5 / st) := by
    field_simp
    linear_combination (0.5 : ℝ) * hst2
  have hX : (m.m01 + m.m10) / (2 * st) = (m.m01 + m.m10) * (0.5 / st) := by ring
  have hZ : (m.m12 + m.m21) / (2 * st) = (m.m12 + m.m21) * (0.5 / st) := by ring
  have hWc : (m.m02 - m.m20) / (2 * st) = (m.m02 - m.m20) * (0.5 / st) := by ring
  rw [hX, hY, hZ, hWc]
  generalize hkg : (0.5 : ℝ) / st = k
  have hk4 : 4 * (1 + m.m11 - m.m00 - m.m22) * (k * k) = 1 := by
    rw [← hkg]
    field_simp
    linear_combination (-1 : ℝ) * hst2
  have hmag : quatMag
      ⟨(m.m01 + m.m10) * k, (1 + m.m11 - m.m00 - m.m22) * k, (m.m12 + m.m21) * k,
        (m.m02 - m.m20) * k⟩ = 1 := by
    apply quatMag_eq_one
    show (m.m01 + m.m10) * k * ((m.m01 + m.m10) * k) +
      (1 + m.m11 - m.m00 - m.m22) * k * ((1 + m.m11 - m.m00 - m.m22) * k) +
      (m.m12 + m.m21) * k * ((m.m12 + m.m21) * k) +
      (m.m02 - m.m20) * k * ((m.m02 - m.m20) * k) = 1
    linear_combination (-(k * k)) * g2 - (k * k) * g4 - (k * k) * g6 + hk4
  rw [normalizeQuaternion_of_mag_one _ hmag]
  refine RotationMatrix.ext ?_ ?_ ?_ ?_ ?_ ?_ ?_ ?_ ?_ <;>
    simp only [quaternionToMatrix]
  · linear_combination (2 * (k * k)) * g6 + (m.m00 - 1) * hk4
  · linear_combination (2 * (k * k)) * g14 + m.m01 * hk4
  · linear_combination (-(2 * (k * k))) * g15 + m.m02 * hk4
  · linear_combination (-(2 * (k * k))) * g14 + m.m10 * hk4
  · linear_combination (2 * (k * k)) * g4 + (2 * (k * k)) * g6 + (m.m11 - 1) * hk4
  · linear_combination (2 * (k * k)) * g13 + m.m12 * hk4
  · linear_combination (-(2 * (k * k))) * g15 + m.m20 * hk4
  · linear_combination (-(2 * (k * k))) * g13 + m.m21 * hk4
  · linear_combination (2 * (k * k)) * g4 + (m.m22 - 1) * hk4

/-- Shepperd branch 4 (`m22` dominant) reproduces the input matrix exactly. -/
theorem shepperd_z (m : RotationMatrix) (h : IsProperRotation m)
    (hd : 0 < 1 + m.m22 - m.m00 - m.m11) :
    quaternionToMatrix (normalizeQuaternion
      ⟨(m.m02 + m.m20) / (2 * Real.sqrt (1 + m.m22 - m.m00 - m.m11)),
       (m.m12 + m.m21) / (2 * Real.sqrt (1 + m.m22 - m.m00 - m.m11)),
       0.25 * (2 * Real.sqrt (1 + m.m22 - m.m00 - m.m11)),
       (m.m10 - m.m01) / (2 * Real.sqrt (1 + m.m22 - m.m00 - m.m11))⟩) = m := by
  obtain ⟨hR0, hR1, hR2, hD01, hD02, hD12, hdet0⟩ := h
  have hdet : m.m00 * (m.m11 * m.m22 - m.m12 * m.m21) -
      m.m01 * (m.m10 * m.m22 - m.m12 * m.m20) +
      m.m02 * (m.m10 * m.m21 - m.m11 * m.m20) = 1 := hdet0
  obtain ⟨g1, g2, g3, g4, g5, g6, g7, g8, g9, g10, g11, g12, g13, g14, g15, g16, g17, g18⟩ :=
    rot_gram m.m00 m.m01 m.m02 m.m10 m.m11 m.m12 m.m20 m.m21 m.m22
      hR0 hR1 hR2 hD01 hD02 hD12 hdet
  generalize hstg : Real.sqrt (1 + m.m22 - m.m00 - m.m11) = st
  have hst2 : st * st = 1 + m.m22 - m.m00 - m.m11 := by
    rw [← hstg]
    exact Real.mul_self_sqrt (by linarith)
  have hstpos : 0 < st := by
    rw [← hstg]
    exact Real.sqrt_pos.mpr (by linarith)
  have hstne : st ≠ 0 := ne_of_gt hstpos
  have hZ : (0.25 : ℝ) * (2 * st) = (1 + m.m22 - m.m00 - m.m11) * (0.5 / st) := by
    field_simp
    linear_combination (0.5 : ℝ) * hst2
  have hX : (m.m02 + m.m20) / (2 * st) = (m.m02 + m.m20) * (0.5 / st) := by ring
  have hY : (m.m12 + m.m21) / (2 * st) = (m.m12 + m.m21) * (0.5 / st) := by ring
  have hWc : (m.m10 - m.m01) / (2 * st) = (m.m10 - m.m01) * (0.5 / st) := by ring
  rw [hX, hY, hZ, hWc]
  generalize hkg : (0.5 : ℝ) / st = k
  have hk4 : 4 * (1 + m.m22 - m.m00 - m.m11) * (k * k) = 1 := by
    rw [← hkg]
    field_simp
    linear_combination (-1 : ℝ) * hst2
  have hmag : quatMag
      ⟨(m.m02 + m.m20) * k, (m.m12 + m.m21) * k, (1 + m.m22 - m.m00 - m.m11) * k,
        (m.m10 - m.m01) * k⟩ = 1 := by
    apply quatMag_eq_one
    show (m.m02 + m.m20) * k * ((m.m02 + m.m20) * k) +
      (m.m12 + m.m21) * k * ((m.m12 + m.m21) * k) +
      (1 + m.m22 - m.m00 - m.m11) * k * ((1 + m.m22 - m.m00 - m.m11) * k) +
      (m.m10 - m.m01) * k * ((m.m10 - m.m01) * k) = 1
    linear_combination (-(k * k)) * g3 - (k * k) * g5 - (k * k) * g6 + hk4
  rw [normalizeQuaternion_of_mag_one _ hmag]
  refine RotationMatrix.ext ?_ ?_ ?_ ?_ ?_ ?_ ?_ ?_ ?_ <;>
    simp only [quaternionToMatrix]
  · linear_combination (2 * (k * k)) * g6 + (m.m00 - 1) * hk4
  · linear_combination (-(2 * (k * k))) * g18 + m.m01 * hk4
  · linear_combination (-(2 * (k * k))) * g17 + m.m02 * hk4
  · linear_combination (-(2 * (k * k))) * g18 + m.m10 * hk4
  · linear_combination (2 * (k * k)) * g5 + (m.m11 - 1) * hk4
  · linear_combination (2 * (k * k)) * g16 + m.m12 * hk4
  · linear_combination (2 * (k * k)) * g17 + m.m20 * hk4
  · linear_combination (-(2 * (k * k))) * g16 + m.m21 * hk4
  · linear_combination (2 * (k * k)) * g5 + (2 * (k * k)) * g6 + (m.m22 - 1) * hk4

/-- Gram–Schmidt with a cross-product third column produces a proper rotation,
provided the two `normalize` fallbacks are not taken. -/
theorem orthonormalize_proper (m : RotationMatrix)
    (hc0 : 1e-20 < dot3 ⟨m.m00, m.m10, m.m20⟩ ⟨m.m00, m.m10, m.m20⟩)
    (hv1 : 1e-20 < dot3
      (sub3 ⟨m.m01, m.m11, m.m21⟩ (normalize3 ⟨m.m00, m.m10, m.m20⟩)
        (dot3 ⟨m.m01, m.m11, m.m21⟩ (normalize3 ⟨m.m00, m.m10, m.m20⟩)))
      (sub3 ⟨m.m01, m.m11, m.m21⟩ (normalize3 ⟨m.m00, m.m10, m.m20⟩)
        (dot3 ⟨m.m01, m.m11, m.m21⟩ (normalize3 ⟨m.m00, m.m10, m.m20⟩)))) :
    IsProperRotation (orthonormalizeMatrix m) := by
  obtain ⟨hu0eq, hu0⟩ := normalize3_big ⟨m.m00, m.m10, m.m20⟩ hc0
  obtain ⟨hu1eq, hu1⟩ := normalize3_big _ hv1
  have hu0v1 : dot3 (normalize3 ⟨m.m00, m.m10, m.m20⟩)
      (sub3 ⟨m.m01, m.m11, m.m21⟩ (normalize3 ⟨m.m00, m.m10, m.m20⟩)
        (dot3 ⟨m.m01, m.m11, m.m21⟩ (normalize3 ⟨m.m00, m.m10, m.m20⟩))) = 0 :=
    sub3_orth _ _ hu0
  have hu0u1 : dot3 (normalize3 ⟨m.m00, m.m10, m.m20⟩)
      (normalize3 (sub3 ⟨m.m01, m.m11, m.m21⟩ (normalize3 ⟨m.m00, m.m10, m.m20⟩)
        (dot3 ⟨m.m01, m.m11, m.m21⟩ (normalize3 ⟨m.m00, m.m10, m.m20⟩)))) = 0 := by
    rw [hu1eq, dot3_div, hu0v1, zero_div]
  -- abbreviations for the three columns of the output
  generalize hu0g : normalize3 ⟨m.m00, m.m10, m.m20⟩ = u0 at *
  generalize hu1g : normalize3 (sub3 ⟨m.m01, m.m11, m.m21⟩ u0
    (dot3 ⟨m.m01, m.m11, m.m21⟩ u0)) = u1 at *
  have hu2 : dot3 (cross3 u0 u1) (cross3 u0 u1) = 1 := by
    rw [lagrange3, hu0, hu1, hu0u1]
    norm_num
  have hN : orthonormalizeMatrix m =
      ⟨u0.a, u1.a, (cross3 u0 u1).a, u0.b, u1.b, (cross3 u0 u1).b,
        u0.c, u1.c, (cross3 u0 u1).c⟩ := by
    simp only [orthonormalizeMatrix, hu0g, hu1g]
  have hdetN : detM (orthonormalizeMatrix m) = 1 := by
    rw [hN, det_columns u0 u1 (cross3 u0 u1)]
    exact hu2
  have hu0' := hu0
  have hu1' := hu1
  have hu2' := hu2
  have hu0u1' := hu0u1
  have h02 : dot3 u0 (cross3 u0 u1) = 0 := dot3_cross_left u0 u1
  have h12 : dot3 u1 (cross3 u0 u1) = 0 := dot3_cross_right u0 u1
  simp only [dot3] at hu0' hu1' hu2' hu0u1' h02 h12
  have hdet9 : u0.a * (u1.b * (cross3 u0 u1).c - u1.c * (cross3 u0 u1).b) -
      u0.b * (u1.a * (cross3 u0 u1).c - u1.c * (cross3 u0 u1).a) +
      u0.c * (u1.a * (cross3 u0 u1).b - u1.b * (cross3 u0 u1).a) = 1 := by
    have h9 := hdetN
    rw [hN] at h9
    simp only [detM] at h9
    linear_combination h9
  obtain ⟨-, -, -, -, -, -, -, -, -, tK0, tK1, tK2, tE01, tE02, tE12⟩ :=
    rot_derived u0.a u0.b u0.c u1.a u1.b u1.c (cross3 u0 u1).a (cross3 u0 u1).b
      (cross3 u0 u1).c hu0' hu1' hu2' hu0u1' h02 h12 hdet9
  refine ⟨?_, ?_, ?_, ?_, ?_, ?_, hdetN⟩ <;> rw [hN]
  · exact tK0
  · exact tK1
  · exact tK2
  · exact tE01
  · exact tE02
  · exact tE12

theorem proper_orthoMaxError_zero (m : RotationMatrix) (h : IsProperRotation m) :
    orthoMaxError m = 0 := by
  obtain ⟨h0, h1, h2, h01, h02, h12, -⟩ := h
  have h10 : m.m10 * m.m00 + m.m11 * m.m01 + m.m12 * m.m02 = 0 := by
    linear_combination h01
  have h20 : m.m20 * m.m00 + m.m21 * m.m01 + m.m22 * m.m02 = 0 := by
    linear_combination h02
  have h21 : m.m20 * m.m10 + m.m21 * m.m11 + m.m22 * m.m12 = 0 := by
    linear_combination h12
  simp only [orthoMaxError]
  rw [h0, h1, h2, h01, h02, h12, h10, h20, h21]
  norm_num

theorem proper_validates (m : RotationMatrix) (h : IsProperRotation m) :
    validateRotationMatrix m = .valid := by
  have hdet : detM m = 1 := h.2.2.2.2.2.2
  have hb : orthoMaxError m = 0 := proper_orthoMaxError_zero m h
  have c1 : ¬ |detM m| < 1e-10 := by rw [hdet]; norm_num
  have c2 : ¬ detM m < 0 := by rw [hdet]; norm_num
  have c3 : ¬ orthoMaxError m > 0.01 := by rw [hb]; norm_num
  simp only [validateRotationMatrix]
  rw [if_neg c1, if_neg c2, if_neg c3]

/-! ## C7 — orthonormalization repairs a near-orthonormal matrix -/

set_option maxHeartbeats 1600000 in
/-- Determinant of a symmetric Gram matrix whose entries are within 0.01 of
the identity is at least 0.9. -/
theorem gram_det_lower (s00 s01 s02 s11 s12 s22 : ℝ)
    (h00 : |s00 - 1| ≤ 0.01) (h11 : |s11 - 1| ≤ 0.01) (h22 : |s22 - 1| ≤ 0.01)
    (h01 : |s01| ≤ 0.01) (h02 : |s02| ≤ 0.01) (h12 : |s12| ≤ 0.01) :
    0.9 ≤ s00 * (s11 * s22 - s12 * s12) - s01 * (s01 * s22 - s12 * s02) +
      s02 * (s01 * s12 - s11 * s02) := by
  rw [abs_le] at h00 h11 h22 h01 h02 h12
  have p1 : (0.9603 : ℝ) ≤ s11 * s22 := by nlinarith [h11.1, h11.2, h22.1, h22.2]
  have q12 : s12 * s12 ≤ 0.0001 := by nlinarith [h12.1, h12.2]
  have q01 : s01 * s01 ≤ 0.0001 := by nlinarith [h01.1, h01.2]
  have q02 : s02 * s02 ≤ 0.0001 := by nlinarith [h02.1, h02.2]
  have pA : (0.95 : ℝ) ≤ s00 * (s11 * s22) := by nlinarith [p1, h00.1, h00.2]
  have pB : s00 * (s12 * s12) ≤ 0.000101 := by
    nlinarith [q12, h00.2, mul_self_nonneg s12]
  have pC : s01 * (s01 * s22) ≤ 0.000101 := by
    nlinarith [q01, h22.2, mul_self_nonneg s01]
  have pE : s02 * (s11 * s02) ≤ 0.000101 := by
    nlinarith [q02, h11.2, mul_self_nonneg s02]
  have pD : (-0.0000011 : ℝ) ≤ s01 * (s12 * s02) := by
    have hp1 : (-0.0001 : ℝ) ≤ s12 * s02 := by nlinarith [h12.1, h12.2, h02.1, h02.2]
    have hp2 : s12 * s02 ≤ 0.0001 := by nlinarith [h12.1, h12.2, h02.1, h02.2]
    nlinarith [hp1, hp2, h01.1, h01.2]
  nlinarith [pA, pB, pC, pD, pE]

set_option maxHeartbeats 4000000 in
/-- C7: applied to a matrix whose maximum `R·Rᵀ` deviation is within the 0.01
tolerance, `orthonormalizeMatrix` yields a matrix that `validateRotationMatrix`
classifies as valid, with determinant exactly +1 (right-handed); the output
does not depend on the input's third column at all, so any reflection or skew
there is discarded. -/
theorem orthonormalize_spec (m : RotationMatrix) (h : orthoMaxError m ≤ 0.01) :
    validateRotationMatrix (orthonormalizeMatrix m) = .valid ∧
    detM (orthonormalizeMatrix m) = 1 ∧
    (∀ x y z : ℝ,
      orthonormalizeMatrix ⟨m.m00, m.m01, x, m.m10, m.m11, y, m.m20, m.m21, z⟩ =
        orthonormalizeMatrix m) := by
  simp only [orthoMaxError, sub_zero, max_le_iff] at h
  obtain ⟨⟨⟨⟨⟨⟨⟨⟨⟨-, b00⟩, b01⟩, b02⟩, b10⟩, b11⟩, b12⟩, b20⟩, b21⟩, b22⟩ := h
  have hdet2 : (0.9 : ℝ) ≤ detM m * detM m := by
    have key : detM m * detM m =
        (m.m00 * m.m00 + m.m01 * m.m01 + m.m02 * m.m02) *
          ((m.m10 * m.m10 + m.m11 * m.m11 + m.m12 * m.m12) *
            (m.m20 * m.m20 + m.m21 * m.m21 + m.m22 * m.m22) -
           (m.m10 * m.m20 + m.m11 * m.m21 + m.m12 * m.m22) *
            (m.m10 * m.m20 + m.m11 * m.m21 + m.m12 * m.m22)) -
        (m.m00 * m.m10 + m.m01 * m.m11 + m.m02 * m.m12) *
          ((m.m00 * m.m10 + m.m01 * m.m11 + m.m02 * m.m12) *
            (m.m20 * m.m20 + m.m21 * m.m21 + m.m22 * m.m22) -
           (m.m10 * m.m20 + m.m11 * m.m21 + m.m12 * m.m22) *
            (m.m00 * m.m20 + m.m01 * m.m21 + m.m02 * m.m22)) +
        (m.m00 * m.m20 + m.m01 * m.m21 + m.m02 * m.m22) *
          ((m.m00 * m.m10 + m.m01 * m.m11 + m.m02 * m.m12) *
            (m.m10 * m.m20 + m.m11 * m.m21 + m.m12 * m.m22) -
           (m.m10 * m.m10 + m.m11 * m.m11 + m.m12 * m.m12) *
            (m.m00 * m.m20 + m.m01 * m.m21 + m.m02 * m.m22)) := by
      simp only [detM]
      ring
    rw [key]
    exact gram_det_lower _ _ _ _ _ _ b00 b11 b22 b01 b02 b12
  rw [abs_le] at b00 b11 b22
  have hS0 := dot3_self_nonneg (⟨m.m00, m.m10, m.m20⟩ : Vec3)
  have hS1 := dot3_self_nonneg (⟨m.m01, m.m11, m.m21⟩ : Vec3)
  have hS2 := dot3_self_nonneg (⟨m.m02, m.m12, m.m22⟩ : Vec3)
  have hS0le : dot3 (⟨m.m00, m.m10, m.m20⟩ : Vec3) ⟨m.m00, m.m10, m.m20⟩ ≤ 3.03 := by
    have h1 := hS1
    have h2 := hS2
    simp only [dot3] at h1 h2 ⊢
    nlinarith [b00.2, b11.2, b22.2, h1, h2]
  have hS1le : dot3 (⟨m.m01, m.m11, m.m21⟩ : Vec3) ⟨m.m01, m.m11, m.m21⟩ ≤ 3.03 := by
    have h1 := hS0
    have h2 := hS2
    simp only [dot3] at h1 h2 ⊢
    nlinarith [b00.2, b11.2, b22.2, h1, h2]
  have hS2le : dot3 (⟨m.m02, m.m12, m.m22⟩ : Vec3) ⟨m.m02, m.m12, m.m22⟩ ≤ 3.03 := by
    have h1 := hS0
    have h2 := hS1
    simp only [dot3] at h1 h2 ⊢
    nlinarith [b00.2, b11.2, b22.2, h1, h2]
  have hdc : detM m = dot3 (⟨m.m02, m.m12, m.m22⟩ : Vec3)
      (cross3 ⟨m.m00, m.m10, m.m20⟩ ⟨m.m01, m.m11, m.m21⟩) := by
    simp only [detM, dot3, cross3]
    ring
  have hXnn := dot3_self_nonneg (cross3 ⟨m.m00, m.m10, m.m20⟩ ⟨m.m01, m.m11, m.m21⟩)
  have hcs := cauchy3 (⟨m.m02, m.m12, m.m22⟩ : Vec3)
    (cross3 ⟨m.m00, m.m10, m.m20⟩ ⟨m.m01, m.m11, m.m21⟩)
  have hXlow : (0.29 : ℝ) ≤ dot3 (cross3 ⟨m.m00, m.m10, m.m20⟩ ⟨m.m01, m.m11, m.m21⟩)
      (cross3 ⟨m.m00, m.m10, m.m20⟩ ⟨m.m01, m.m11, m.m21⟩) := by
    rw [hdc] at hdet2
    nlinarith [hdet2, hcs, hXnn, mul_nonneg hXnn (sub_nonneg.mpr hS2le)]
  have hlag := lagrange3 (⟨m.m00, m.m10, m.m20⟩ : Vec3) (⟨m.m01, m.m11, m.m21⟩ : Vec3)
  have hc0pos : (1e-20 : ℝ) < dot3 (⟨m.m00, m.m10, m.m20⟩ : Vec3) ⟨m.m00, m.m10, m.m20⟩ := by
    nlinarith [hXlow, hlag, hS0,
      mul_self_nonneg (dot3 (⟨m.m00, m.m10, m.m20⟩ : Vec3) ⟨m.m01, m.m11, m.m21⟩),
      mul_nonneg hS0 (sub_nonneg.mpr hS1le)]
  obtain ⟨hu0eq, hu0unit⟩ := normalize3_big ⟨m.m00, m.m10, m.m20⟩ hc0pos
  have hS0pos : (0 : ℝ) < dot3 (⟨m.m00, m.m10, m.m20⟩ : Vec3) ⟨m.m00, m.m10, m.m20⟩ :=
    lt_trans (by norm_num) hc0pos
  have hL2 : Real.sqrt (dot3 (⟨m.m00, m.m10, m.m20⟩ : Vec3) ⟨m.m00, m.m10, m.m20⟩) *
      Real.sqrt (dot3 (⟨m.m00, m.m10, m.m20⟩ : Vec3) ⟨m.m00, m.m10, m.m20⟩) =
      dot3 (⟨m.m00, m.m10, m.m20⟩ : Vec3) ⟨m.m00, m.m10, m.m20⟩ :=
    Real.mul_self_sqrt hS0pos.le
  have hLne : Real.sqrt (dot3 (⟨m.m00, m.m10, m.m20⟩ : Vec3) ⟨m.m00, m.m10, m.m20⟩) ≠ 0 := by
    positivity
  have hd : dot3 (⟨m.m01, m.m11, m.m21⟩ : Vec3) (normalize3 ⟨m.m00, m.m10, m.m20⟩) =
      dot3 (⟨m.m01, m.m11, m.m21⟩ : Vec3) ⟨m.m00, m.m10, m.m20⟩ /
        Real.sqrt (dot3 (⟨m.m00, m.m10, m.m20⟩ : Vec3) ⟨m.m00, m.m10, m.m20⟩) := by
    rw [hu0eq]
    exact dot3_div _ _ _
  have hV : dot3
      (sub3 ⟨m.m01, m.m11, m.m21⟩ (normalize3 ⟨m.m00, m.m10, m.m20⟩)
        (dot3 ⟨m.m01, m.m11, m.m21⟩ (normalize3 ⟨m.m00, m.m10, m.m20⟩)))
      (sub3 ⟨m.m01, m.m11, m.m21⟩ (normalize3 ⟨m.m00, m.m10, m.m20⟩)
        (dot3 ⟨m.m01, m.m11, m.m21⟩ (normalize3 ⟨m.m00, m.m10, m.m20⟩))) =
      dot3 (⟨m.m01, m.m11, m.m21⟩ : Vec3) ⟨m.m01, m.m11, m.m21⟩ -
        (dot3 (⟨m.m01, m.m11, m.m21⟩ : Vec3) ⟨m.m00, m.m10, m.m20⟩ /
          Real.sqrt (dot3 (⟨m.m00, m.m10, m.m20⟩ : Vec3) ⟨m.m00, m.m10, m.m20⟩)) *
        (dot3 (⟨m.m01, m.m11, m.m21⟩ : Vec3) ⟨m.m00, m.m10, m.m20⟩ /
          Real.sqrt (dot3 (⟨m.m00, m.m10, m.m20⟩ : Vec3) ⟨m.m00, m.m10, m.m20⟩)) := by
    rw [dot3_sub3, hu0unit, hd]
    ring
  have hVS0 : dot3
      (sub3 ⟨m.m01, m.m11, m.m21⟩ (normalize3 ⟨m.m00, m.m10, m.m20⟩)
        (dot3 ⟨m.m01, m.m11, m.m21⟩ (normalize3 ⟨m.m00, m.m10, m.m20⟩)))
      (sub3 ⟨m.m01, m.m11, m.m21⟩ (normalize3 ⟨m.m00, m.m10, m.m20⟩)
        (dot3 ⟨m.m01, m.m11, m.m21⟩ (normalize3 ⟨m.m00, m.m10, m.m20⟩))) *
      dot3 (⟨m.m00, m.m10, m.m20⟩ : Vec3) ⟨m.m00, m.m10, m.m20⟩ =
      dot3 (cross3 ⟨m.m00, m.m10, m.m20⟩ ⟨m.m01, m.m11, m.m21⟩)
        (cross3 ⟨m.m00, m.m10, m.m20⟩ ⟨m.m01, m.m11, m.m21⟩) := by
    rw [hV, hlag,
      dot3_comm (⟨m.m00, m.m10, m.m20⟩ : Vec3) (⟨m.m01, m.m11, m.m21⟩ : Vec3)]
    field_simp
    ring_nf
  have hVnn := dot3_self_nonneg
    (sub3 ⟨m.m01, m.m11, m.m21⟩ (normalize3 ⟨m.m00, m.m10, m.m20⟩)
      (dot3 ⟨m.m01, m.m11, m.m21⟩ (normalize3 ⟨m.m00, m.m10, m.m20⟩)))
  have hv1pos : (1e-20 : ℝ) < dot3
      (sub3 ⟨m.m01, m.m11, m.m21⟩ (normalize3 ⟨m.m00, m.m10, m.m20⟩)
        (dot3 ⟨m.m01, m.m11, m.m21⟩ (normalize3 ⟨m.m00, m.m10, m.m20⟩)))
      (sub3 ⟨m.m01, m.m11, m.m21⟩ (normalize3 ⟨m.m00, m.m10, m.m20⟩)
        (dot3 ⟨m.m01, m.m11, m.m21⟩ (normalize3 ⟨m.m00, m.m10, m.m20⟩))) := by
    nlinarith [hVS0, hXlow, hVnn, mul_nonneg hVnn (sub_nonneg.mpr hS0le)]
  have hprop := orthonormalize_proper m hc0pos hv1pos
  refine ⟨proper_validates _ hprop, hprop.2.2.2.2.2.2, fun x y z => ?_⟩
  simp only [orthonormalizeMatrix]

theorem orthonormalize_spec_witness :
    validateRotationMatrix (orthonormalizeMatrix ⟨1, 0, 0, 0, 1, 0, 0, 0, 1⟩) =
      .valid ∧
    detM (orthonormalizeMatrix ⟨1, 0, 0, 0, 1, 0, 0, 0, 1⟩) = 1 := by
  have h := orthonormalize_spec ⟨1, 0, 0, 0, 1, 0, 0, 0, 1⟩
    (by norm_num [orthoMaxError, max_def])
  exact ⟨h.1, h.2.1⟩

/-! ## C2 — matrix → quaternion → matrix round trip -/

/-- C2: for every orthonormal matrix with determinant +1,
`quaternionToMatrix (matrixToQuaternion M)` reproduces `M` — in the real
model the reproduction is exact, hence within 1e-9 in every entry — no
matter which of the four Shepperd branches fires (the branch only changes
the sign of the intermediate quaternion, which the double cover cancels). -/
theorem matrix_quaternion_roundtrip (m : RotationMatrix) (h : IsProperRotation m) :
    quaternionToMatrix (matrixToQuaternion m) = m ∧
    (|(quaternionToMatrix (matrixToQuaternion m)).m00 - m.m00| ≤ 1e-9 ∧
     |(quaternionToMatrix (matrixToQuaternion m)).m01 - m.m01| ≤ 1e-9 ∧
     |(quaternionToMatrix (matrixToQuaternion m)).m02 - m.m02| ≤ 1e-9 ∧
     |(quaternionToMatrix (matrixToQuaternion m)).m10 - m.m10| ≤ 1e-9 ∧
     |(quaternionToMatrix (matrixToQuaternion m)).m11 - m.m11| ≤ 1e-9 ∧
     |(quaternionToMatrix (matrixToQuaternion m)).m12 - m.m12| ≤ 1e-9 ∧
     |(quaternionToMatrix (matrixToQuaternion m)).m20 - m.m20| ≤ 1e-9 ∧
     |(quaternionToMatrix (matrixToQuaternion m)).m21 - m.m21| ≤ 1e-9 ∧
     |(quaternionToMatrix (matrixToQuaternion m)).m22 - m.m22| ≤ 1e-9) := by
  have hR0 := h.1
  have hR1 := h.2.1
  have hR2 := h.2.2.1
  have hb00 : m.m00 ≤ 1 := by
    nlinarith [sq_nonneg (m.m00 - 1), sq_nonneg m.m01, sq_nonneg m.m02]
  have hb11 : m.m11 ≤ 1 := by
    nlinarith [sq_nonneg (m.m11 - 1), sq_nonneg m.m10, sq_nonneg m.m12]
  have hb22 : m.m22 ≤ 1 := by
    nlinarith [sq_nonneg (m.m22 - 1), sq_nonneg m.m20, sq_nonneg m.m21]
  have hexact : quaternionToMatrix (matrixToQuaternion m) = m := by
    simp only [matrixToQuaternion]
    split_ifs with ht hx hy
    · exact shepperd_w m h ht
    · exact shepperd_x m h (by linarith [hx.1, hx.2])
    · refine shepperd_y m h ?_
      push_neg at hx
      rcases le_or_lt m.m00 m.m11 with hc | hc
      · linarith
      · linarith [hx hc]
    · refine shepperd_z m h ?_
      push_neg at hx
      have hT : m.m00 + m.m11 + m.m22 ≤ 0 := not_lt.mp ht
      have hyz : m.m11 ≤ m.m22 := not_lt.mp hy
      have h02 : m.m00 ≤ m.m22 := by
        rcases le_or_lt m.m00 m.m11 with hc | hc
        · linarith
        · exact hx hc
      linarith
  refine ⟨hexact, ?_⟩
  rw [hexact]
  norm_num

theorem matrix_quaternion_roundtrip_witness :
    quaternionToMatrix (matrixToQuaternion ⟨1, 0, 0, 0, 1, 0, 0, 0, 1⟩) =
      (⟨1, 0, 0, 0, 1, 0, 0, 0, 1⟩ : RotationMatrix) :=
  (matrix_quaternion_roundtrip ⟨1, 0, 0, 0, 1, 0, 0, 0, 1⟩
    (by norm_num [IsProperRotation, detM])).1

/-! ## C10 — the matrix of a unit quaternion is a proper rotation -/

theorem quaternionToMatrix_proper (q : Quaternion)
    (h : q.x * q.x + q.y * q.y + q.z * q.z + q.w * q.w = 1) :
    IsProperRotation (quaternionToMatrix q) := by
  simp only [IsProperRotation, quaternionToMatrix, detM]
  refine ⟨?_, ?_, ?_, ?_, ?_, ?_, ?_⟩
  · linear_combination (4 * (q.y * q.y + q.z * q.z)) * h
  · linear_combination (4 * (q.x * q.x + q.z * q.z)) * h
  · linear_combination (4 * (q.x * q.x + q.y * q.y)) * h
  · linear_combination (-(4 * q.x * q.y)) * h
  · linear_combination (-(4 * q.x * q.z)) * h
  · linear_combination (-(4 * q.y * q.z)) * h
  · linear_combination (4 * (q.x * q.x + q.y * q.y + q.z * q.z)) * h

/-- C10: for every quaternion of magnitude 1, `quaternionToMatrix` produces a
proper rotation matrix — `R·Rᵀ` is the identity and `det R = +1` — and hence
`validateRotationMatrix` classifies it as valid. -/
theorem unit_quaternion_matrix_proper (q : Quaternion)
    (h : q.x * q.x + q.y * q.y + q.z * q.z + q.w * q.w = 1) :
    IsProperRotation (quaternionToMatrix q) ∧
    validateRotationMatrix (quaternionToMatrix q) = .valid := by
  have hp := quaternionToMatrix_proper q h
  exact ⟨hp, proper_validates _ hp⟩

theorem unit_quaternion_matrix_proper_witness :
    IsProperRotation (quaternionToMatrix ⟨0, 0, 0, 1⟩) ∧
    validateRotationMatrix (quaternionToMatrix ⟨0, 0, 0, 1⟩) = .valid :=
  unit_quaternion_matrix_proper ⟨0, 0, 0, 1⟩ (by norm_num)

end MasteringRotation
